import Mathlib



namespace Goirc

section AssocDefs

variable {κ : Type} {α : Type} [DecidableEq κ]

/-- Lookup of the first binding of key `k`. -/

def alook (k : κ) : List (κ × α) → Option α
  | [] => none
  | p :: l => if p.1 = k then some p.2 else alook k l

/-- Remove every binding of key `k`. -/

def aerase (k : κ) : List (κ × α) → List (κ × α)
  | [] => []
  | p :: l => if p.1 = k then aerase k l else p :: aerase k l

/-- Bind key `k` to value `v`, dropping any previous binding. -/

def aset (k : κ) (v : α) (l : List (κ × α)) : List (κ × α) :=
  (k, v) :: aerase k l

/-- Apply `f` to the value bound to `k`, leaving other bindings alone. -/

def aupd (k : κ) (f : α → α) : List (κ × α) → List (κ × α)
  | [] => []
  | p :: l => (if p.1 = k then (p.1, f p.2) else p) :: aupd k f l

/-- The keys of an association list. -/

def akeys (l : List (κ × α)) : List κ := l.map Prod.fst

end AssocDefs

/-! ## Data model

Modelled from the spec: the Nick / Channel / ChanPrivs / Tracker data
model of §3 (the `state` package's `tracker.go` / `nick.go` /
`channel.go` and the client package's `nickchan.go` are not in `src/`;
only their tests are).  Field sets follow the tests' references
(`Invisible`, `WallOps`, `HiddenHost`, `SSL`, `Oper` on nick modes;
`Secret`, `Moderated`, `InviteOnly`, `NoExternalMsg`, `Key` on channel
modes; `Voice`/`HalfOp`/`Op`/`Admin`/`Owner` on ChanPrivs). -/

/-- Per-membership privilege flags (§3 ChanPrivs). -/

structure ChanPrivs where
  voice : Bool := false
  halfOp : Bool := false
  op : Bool := false
  admin : Bool := false
  owner : Bool := false
deriving DecidableEq

/-- User mode flags of a nick (§3: invisible, operator, wallops,
hidden-host, secure-connection). -/

structure UserModes where
  invisible : Bool := false
  oper : Bool := false
  wallOps : Bool := false
  hiddenHost : Bool := false
  ssl : Bool := false
deriving DecidableEq

/-- Channel attribute modes (§3: secret, moderated, invite-only,
no-external-messages, topic-locked, private, plus `Key` and `Limit`). -/

structure ChanModes where
  privateCh : Bool := false
  secret : Bool := false
  protectedTopic : Bool := false
  noExternalMsg : Bool := false
  moderated : Bool := false
  inviteOnly : Bool := false
  key : String := ""
  limit : Nat := 0
deriving DecidableEq

/-- The non-membership fields of a Nick (display name, ident, host,
realname, user modes). -/

structure NickInfo where
  nick : String
  ident : String := ""
  host : String := ""
  name : String := ""
  modes : UserModes := {}
deriving DecidableEq

/-- A Nick heap object: its info plus the mirrored membership map from
channel id to this nick's ChanPrivs on that channel. -/

structure NickObj where
  info : NickInfo
  channels : List (Nat × ChanPrivs) := []
deriving DecidableEq

/-- The non-membership fields of a Channel. -/

structure ChanInfo where
  name : String
  topic : String := ""
  modes : ChanModes := {}
deriving DecidableEq

/-- A Channel heap object: its info plus the mirrored membership map
from nick id to that nick's ChanPrivs on this channel. -/

structure ChanObj where
  info : ChanInfo
  nicks : List (Nat × ChanPrivs) := []
deriving DecidableEq

/-- The Tracker (§3): name-keyed indexes of known nicks and channels,
plus the heaps of live objects keyed by id.  `nextId` is the allocator
for fresh object identities (Go pointers). -/

structure Tracker where
  nicks : List (String × Nat) := []
  chans : List (String × Nat) := []
  nickObjs : List (Nat × NickObj) := []
  chanObjs : List (Nat × ChanObj) := []
  nextId : Nat := 0
deriving DecidableEq

/-! ## Tracker lookups -/

/-- Id of the nick tracked under a name, if any. -/

def getNickId (st : Tracker) (n : String) : Option Nat := alook n st.nicks

/-- Id of the channel tracked under a name, if any. -/

def getChanId (st : Tracker) (n : String) : Option Nat := alook n st.chans

/-- The nick object at an id. -/

def getNickObj (st : Tracker) (i : Nat) : Option NickObj := alook i st.nickObjs

/-- The channel object at an id. -/

def getChanObj (st : Tracker) (i : Nat) : Option ChanObj := alook i st.chanObjs

/-- `GetNick`: pure lookup of a nick object by name (§4.3). -/

def getNick (st : Tracker) (n : String) : Option NickObj :=
  (getNickId st n).bind (getNickObj st)

/-- `GetChannel`: pure lookup of a channel object by name (§4.3). -/

def getChannel (st : Tracker) (n : String) : Option ChanObj :=
  (getChanId st n).bind (getChanObj st)

/-- The `channel.Nicks[nick]` side of the membership mirror: the
ChanPrivs entry for nick id `nid` in channel id `chid`. -/

def chanPrivsAt (st : Tracker) (chid nid : Nat) : Option ChanPrivs :=
  (getChanObj st chid).bind fun ch => alook nid ch.nicks

/-- The `nick.Channels[channel]` side of the membership mirror. -/

def nickPrivsAt (st : Tracker) (nid chid : Nat) : Option ChanPrivs :=
  (getNickObj st nid).bind fun n => alook chid n.channels

/-- The mirrored-membership invariant of §3: `channel.Nicks[nick]`
exists iff `nick.Channels[channel]` exists, and both carry the same
ChanPrivs value. -/

def Mirror (st : Tracker) : Prop :=
  ∀ chid nid, chanPrivsAt st chid nid = nickPrivsAt st nid chid

/-! ## Tracker mutation

Modelled from the spec: §4.3's operation list.  Where the shipped state
tests (`part_000`) pin behaviour beyond the spec text — notably
`TestReNick`, which requires a rename onto an occupied destination to
leave both entries untouched rather than swapping or overwriting them —
the test is followed. -/

/-- `NewNick` (client form, `NewNick(nick, ident, name, host)`): create
and index a nick; returns `none` and leaves the state unchanged if the
name is already tracked. -/

def t_newNick? (st : Tracker) (nick ident name host : String) :
    Option Nat × Tracker :=
  if (alook nick st.nicks).isSome then (none, st)
  else
    (some st.nextId,
      { st with
        nicks := aset nick st.nextId st.nicks
        nickObjs := aset st.nextId
          { info := { nick := nick, ident := ident, host := host, name := name } }
          st.nickObjs
        nextId := st.nextId + 1 })

/-- `NewNick`, state part only. -/

def t_newNick (st : Tracker) (nick ident name host : String) : Tracker :=
  (t_newNick? st nick ident name host).2

/-- `NewChannel(name)`: create and index a channel; `none` and no
mutation on a duplicate name. -/

def t_newChannel? (st : Tracker) (name : String) : Option Nat × Tracker :=
  if (alook name st.chans).isSome then (none, st)
  else
    (some st.nextId,
      { st with
        chans := aset name st.nextId st.chans
        chanObjs := aset st.nextId { info := { name := name } } st.chanObjs
        nextId := st.nextId + 1 })

/-- `NewChannel`, state part only. -/

def t_newChannel (st : Tracker) (name : String) : Tracker :=
  (t_newChannel? st name).2

/-- `ReNick(old, neu)`: move the identity at `old` to key `neu`,
preserving the object (same id, same memberships) and updating its
display nick.  No-op if `old` is not tracked, and — per `TestReNick` —
no-op if `neu` is already occupied. -/

def t_reNick (st : Tracker) (old neu : String) : Tracker :=
  match alook old st.nicks with
  | none => st
  | some nid =>
    if (alook neu st.nicks).isSome then st
    else
      { st with
        nicks := aset neu nid (aerase old st.nicks)
        nickObjs := aupd nid (fun o => { o with info := { o.info with nick := neu } }) st.nickObjs }

/-- Drop one nick id from a channel's membership map. -/

def purgeNick (nid : Nat) (ch : ChanObj) : ChanObj :=
  { ch with nicks := aerase nid ch.nicks }

/-- Drop one channel id from a nick's membership map. -/

def purgeChan (chid : Nat) (o : NickObj) : NickObj :=
  { o with channels := aerase chid o.channels }

/-- `DelNick(name)`: remove the nick from the index and remove its
mirrored membership entry from every channel; no-op if absent.  The
heap object itself becomes unreachable (Go garbage collection), so it
is kept but unlinked from every channel. -/

def t_delNick (st : Tracker) (name : String) : Tracker :=
  match alook name st.nicks with
  | none => st
  | some nid =>
    { st with
      nicks := aerase name st.nicks
      nickObjs := aupd nid (fun o => { o with channels := [] }) st.nickObjs
      chanObjs := st.chanObjs.map fun p => (p.1, purgeNick nid p.2) }

/-- `DelChannel(name)`: symmetric to `DelNick`. -/

def t_delChannel (st : Tracker) (name : String) : Tracker :=
  match alook name st.chans with
  | none => st
  | some chid =>
    { st with
      chans := aerase name st.chans
      chanObjs := aupd chid (fun o => { o with nicks := [] }) st.chanObjs
      nickObjs := st.nickObjs.map fun p => (p.1, purgeChan chid p.2) }

/-- `Channel.AddNick`: add the membership edge between channel id
`chid` and nick id `nid`, writing a fresh (all-false) ChanPrivs into
both mirrored maps atomically; no-op if either object is missing or the
edge already exists. -/

def t_addNick (st : Tracker) (chid nid : Nat) : Tracker :=
  match getChanObj st chid, getNickObj st nid with
  | some ch, some _ =>
    if (alook nid ch.nicks).isSome then st
    else
      { st with
        chanObjs := aupd chid (fun c => { c with nicks := aset nid {} c.nicks }) st.chanObjs
        nickObjs := aupd nid (fun n => { n with channels := aset chid {} n.channels }) st.nickObjs }
  | _, _ => st

/-- `RemoveNick` / `Channel.DelNick`: remove the membership edge from
both mirrored maps atomically. -/

def t_remNick (st : Tracker) (chid nid : Nat) : Tracker :=
  { st with
    chanObjs := aupd chid (fun c => { c with nicks := aerase nid c.nicks }) st.chanObjs
    nickObjs := aupd nid (fun n => { n with channels := aerase chid n.channels }) st.nickObjs }

/-- Update the shared ChanPrivs of a membership edge.  The Go code
mutates one `*ChanPrivs` referenced from both maps; here the same
function is applied to both mirrored entries. -/

def t_setPrivs (st : Tracker) (chid nid : Nat) (f : ChanPrivs → ChanPrivs) : Tracker :=
  { st with
    chanObjs := aupd chid (fun c => { c with nicks := aupd nid f c.nicks }) st.chanObjs
    nickObjs := aupd nid (fun n => { n with channels := aupd chid f n.channels }) st.nickObjs }

/-- Update the non-membership fields of a nick object in place. -/

def t_updNick (st : Tracker) (nid : Nat) (f : NickInfo → NickInfo) : Tracker :=
  { st with nickObjs := aupd nid (fun o => { o with info := f o.info }) st.nickObjs }

/-- Update the non-membership fields of a channel object in place. -/

def t_updChan (st : Tracker) (chid : Nat) (f : ChanInfo → ChanInfo) : Tracker :=
  { st with chanObjs := aupd chid (fun o => { o with info := f o.info }) st.chanObjs }

/-- `AddNick` resolved by names (the handler-facing form). -/

def t_addNickByName (st : Tracker) (cn nn : String) : Tracker :=
  match getChanId st cn, getNickId st nn with
  | some chid, some nid => t_addNick st chid nid
  | _, _ => st

/-- `IsOn(channelName, nickName)` (§4.3): true iff both entities exist
and the membership mirror holds between them. -/

def isOn (st : Tracker) (cn nn : String) : Bool :=
  match getChanId st cn, getNickId st nn with
  | some chid, some nid => (chanPrivsAt st chid nid).isSome && (nickPrivsAt st nid chid).isSome
  | _, _ => false

/-! ## Line parser

Modelled from the spec: §4.1 `parseLine` (the parser source is not in
`src/`).  An optional leading `:origin` token is stripped and decomposed
at `!` and `@`; the command is the next whitespace token; the remaining
tokens are positional arguments until a `:`-prefixed token, which starts
the single trailing argument (embedded spaces preserved).  Trailing
CR/LF is stripped first; a line with no command token is a parse
failure. -/

/-- A parsed protocol line. -/

structure Line where
  nick : String := ""
  ident : String := ""
  host : String := ""
  src : String := ""
  cmd : String := ""
  args : List String := []
deriving DecidableEq

/-- Split a character list at the first `" :"`, returning the part
before it and — when present — the trailing part after it with all
embedded spaces preserved. -/

def breakTrail : List Char → List Char × Option (List Char)
  | [] => ([], none)
  | ' ' :: ':' :: rest => ([], some rest)
  | c :: rest =>
    let r := breakTrail rest
    (c :: r.1, r.2)

/-- Whitespace-separated fields of a character list, empties dropped. -/

def fieldsAux : List Char → List Char → List (List Char)
  | [], acc => if acc.isEmpty then [] else [acc.reverse]
  | c :: rest, acc =>
    if c = ' ' then
      if acc.isEmpty then fieldsAux rest [] else acc.reverse :: fieldsAux rest []
    else fieldsAux rest (c :: acc)

/-- Whitespace-separated fields. -/

def fields (cs : List Char) : List (List Char) := fieldsAux cs []

/-- Split at the first occurrence of a character: `some` of the parts
before/after it, or `none` when absent. -/

def splitAtChar (ch : Char) : List Char → Option (List Char × List Char)
  | [] => none
  | c :: rest =>
    if c = ch then some ([], rest)
    else (splitAtChar ch rest).map fun r => (c :: r.1, r.2)

/-- Drop one trailing CR and/or LF. -/

def stripCRLF (cs : List Char) : List Char :=
  ((cs.reverse.dropWhile fun c => c = '\n' || c = '\r')).reverse

/-- §4.1 `parse(raw line)`.  Returns `none` (ParseError, line dropped)
when no command token is present. -/

def parseLine (raw : String) : Option Line :=
  let cs := stripCRLF raw.data
  let (origin?, rest) :=
    match cs with
    | ':' :: cs' =>
      match splitAtChar ' ' cs' with
      | some (src, r) => (some src, r)
      | none => (some cs', [])
    | _ => (none, cs)
  let (before, trail?) := breakTrail rest
  let toks := fields before
  match toks with
  | [] => none
  | cmd :: args =>
    let argStrs := args.map fun t => String.mk t
    let allArgs :=
      match trail? with
      | some t => argStrs ++ [String.mk t]
      | none => argStrs
    let base : Line := { cmd := String.mk cmd, args := allArgs }
    some <|
      match origin? with
      | none => base
      | some src =>
        let srcS := String.mk src
        match splitAtChar '!' src with
        | some (n, rest1) =>
          match splitAtChar '@' rest1 with
          | some (i, h) =>
            { base with
              src := srcS, nick := String.mk n, ident := String.mk i, host := String.mk h }
          | none => { base with src := srcS, host := srcS }
        | none => { base with src := srcS, host := srcS }

/-- The trailing (last) argument of a line, `""` when absent. -/

def lastArg (l : Line) : String := l.args.getLastD ""

/-- Argument at a position, `""` when out of range. -/

def argAt (l : Line) (i : Nat) : String := l.args.getD i ""

/-! ## Connection

The client-side connection: the tracker, the id of the local identity
`Me`, the outbound line queue handed to the send path, and the
inconsistency reports produced by handler error paths. -/

/-- A connection: tracked state plus the observable outputs. -/

structure Conn where
  st : Tracker := {}
  meId : Nat := 0
  out : List String := []
  errs : List String := []
deriving DecidableEq

/-- Queue one outbound protocol line. -/

def Conn.send (c : Conn) (s : String) : Conn := { c with out := c.out ++ [s] }

/-- Report an inconsistency (UnknownEntity etc., §7); no state change. -/

def Conn.err (c : Conn) (s : String) : Conn := { c with errs := c.errs ++ [s] }

/-- Replace the tracker. -/

def Conn.withSt (c : Conn) (st : Tracker) : Conn := { c with st := st }

/-- `New(nick, user, name)`: a fresh connection whose tracker holds only
the local identity `Me` (id 0). -/

def connNew (nick ident name : String) : Conn :=
  { st := t_newNick {} nick ident name "", meId := 0 }

/-- The current nick of the local identity (`Me.Nick`). -/

def meNick (c : Conn) : String :=
  match getNickObj c.st c.meId with
  | some o => o.info.nick
  | none => ""

/-! ## Mode codec

Modelled from the spec: §4.2 (the mode-codec source is not in `src/`).
Flag characters are processed left to right within `+`/`-` segments;
value tokens are consumed strictly in order; a flag needing a value with
none remaining is a malformed-mode condition that stops processing of
the remaining flags without reverting earlier changes; unknown flag
characters are ignored. -/

/-- Channel privilege flags that consume a nick-naming value token. -/

def chanPrivFlags : List Char := ['q', 'a', 'o', 'h', 'v']

/-- Set or clear one channel privilege bit. -/

def setPrivChar (m : Char) (b : Bool) (p : ChanPrivs) : ChanPrivs :=
  if m = 'q' then { p with owner := b }
  else if m = 'a' then { p with admin := b }
  else if m = 'o' then { p with op := b }
  else if m = 'h' then { p with halfOp := b }
  else if m = 'v' then { p with voice := b }
  else p

/-- Toggle one valueless channel attribute flag. -/

def setChanFlag (m : Char) (b : Bool) (cm : ChanModes) : ChanModes :=
  if m = 'i' then { cm with inviteOnly := b }
  else if m = 'm' then { cm with moderated := b }
  else if m = 'n' then { cm with noExternalMsg := b }
  else if m = 'p' then { cm with privateCh := b }
  else if m = 's' then { cm with secret := b }
  else if m = 't' then { cm with protectedTopic := b }
  else cm

/-- Valueless channel attribute flag characters. -/

def chanBoolFlags : List Char := ['i', 'm', 'n', 'p', 's', 't']

/-- Channel mode application (§4.2, channel case), one character at a
time; `b` is the current `+`/`-` polarity, `args` the remaining value
tokens. -/

def chanModesGo (chid : Nat) : List Char → Bool → List String → Conn → Conn
  | [], _, _, c => c
  | m :: rest, b, args, c =>
    if m = '+' then chanModesGo chid rest true args c
    else if m = '-' then chanModesGo chid rest false args c
    else if m ∈ chanBoolFlags then
      chanModesGo chid rest b args
        (c.withSt (t_updChan c.st chid fun ci => { ci with modes := setChanFlag m b ci.modes }))
    else if m = 'k' then
      match args with
      | [] => c.err "MODE: not enough arguments"
      | v :: args' =>
        chanModesGo chid rest b args'
          (c.withSt (t_updChan c.st chid fun ci =>
            { ci with modes := { ci.modes with key := if b then v else "" } }))
    else if m = 'l' then
      match args with
      | [] => c.err "MODE: not enough arguments"
      | v :: args' =>
        chanModesGo chid rest b args'
          (c.withSt (t_updChan c.st chid fun ci =>
            { ci with modes := { ci.modes with limit := if b then v.toNat?.getD 0 else 0 } }))
    else if m ∈ chanPrivFlags then
      match args with
      | [] => c.err "MODE: not enough arguments"
      | v :: args' =>
        match getNickId c.st v with
        | some nid =>
          if (chanPrivsAt c.st chid nid).isSome then
            chanModesGo chid rest b args'
              (c.withSt (t_setPrivs c.st chid nid (setPrivChar m b)))
          else chanModesGo chid rest b args' (c.err "MODE: nick not on channel")
        | none => chanModesGo chid rest b args' (c.err "MODE: unknown nick")
    else chanModesGo chid rest b args c

/-- Apply a channel mode argument list to a channel. -/

def parseChanModes (c : Conn) (chid : Nat) (modestr : String) (args : List String) : Conn :=
  chanModesGo chid modestr.data false args c

/-- Toggle one user mode flag. -/

def setUserFlag (m : Char) (b : Bool) (um : UserModes) : UserModes :=
  if m = 'i' then { um with invisible := b }
  else if m = 'o' then { um with oper := b }
  else if m = 'w' then { um with wallOps := b }
  else if m = 'x' then { um with hiddenHost := b }
  else if m = 'z' then { um with ssl := b }
  else um

/-- User mode flag characters. -/

def userFlags : List Char := ['i', 'o', 'w', 'x', 'z']

/-- User mode application (§4.2, user case). -/

def nickModesGo (nid : Nat) : List Char → Bool → Tracker → Tracker
  | [], _, st => st
  | m :: rest, b, st =>
    if m = '+' then nickModesGo nid rest true st
    else if m = '-' then nickModesGo nid rest false st
    else if m ∈ userFlags then
      nickModesGo nid rest b (t_updNick st nid fun ni => { ni with modes := setUserFlag m b ni.modes })
    else nickModesGo nid rest b st

/-- Apply a user mode string to a nick. -/

def parseNickModes (st : Tracker) (nid : Nat) (modestr : String) : Tracker :=
  nickModesGo nid modestr.data false st

/-! ## Protocol handler set

Modelled from the spec: §4.5's handler table (the handler source file is
not in `src/`).  Where the shipped handler tests (`part_001`) pin
behaviour beyond the spec's text, the test is followed; the two
deliberate deviations from the spec's wording are noted on `h_433`
(which per `Test433` always sends the suffixed NICK request, also in the
equal-nick branch) and `h_JOIN` (which per `TestJOIN` treats a JOIN to
an unknown channel by anyone other than the local identity as an
inconsistency rather than creating the channel). -/

/-- `PING`: reply `PONG :token` immediately. -/

def h_PING (c : Conn) (l : Line) : Conn :=
  c.send ("PONG :" ++ lastArg l)

/-- Everything after the first `'@'`, if one occurs. -/

def afterChar (ch : Char) : List Char → Option (List Char)
  | [] => none
  | c :: rest => if c = ch then some rest else afterChar ch rest

/-- `001` welcome: parse `Me`'s host out of the last whitespace token of
the trailing info field ("... test!ident@somehost.com"); dispatches the
`connected` event to external listeners (not modelled — no server
output, no tracker change besides `Me.Host`). -/

def h_001 (c : Conn) (l : Line) : Conn :=
  match afterChar '@' ((fields (lastArg l).data).getLastD []) with
  | some h => c.withSt (t_updNick c.st c.meId fun ni => { ni with host := String.mk h })
  | none => c

/-- `433` nickname-in-use: always resend a nick-change request for the
attempted name with the disambiguating suffix `"_"` appended; when the
attempted name equals `Me`'s current nick (initial negotiation — the
server will not echo a NICK confirmation) additionally apply the rename
locally.  The local-rename discrimination follows the spec §4.5; the
unconditional outbound NICK follows `Test433`, which expects `NICK
test_` on the wire in the equal-nick case too. -/

def h_433 (c : Conn) (l : Line) : Conn :=
  let attempted := argAt l 1
  let neu := attempted ++ "_"
  let c1 := c.send ("NICK " ++ neu)
  if attempted = meNick c then c1.withSt (t_reNick c1.st attempted neu)
  else c1

/-- `NICK`: rename the originating nick in the tracker; unknown origin
is an inconsistency. -/

def h_NICK (c : Conn) (l : Line) : Conn :=
  if (getNickId c.st l.nick).isSome then
    c.withSt (t_reNick c.st l.nick (argAt l 0))
  else c.err "NICK: unknown nick"

/-- Strip the CTCP delimiter bytes (`\x01`) from a trailing payload. -/

def stripCtcp (cs : List Char) : List Char :=
  ((cs.dropWhile fun c => c = '\x01').reverse.dropWhile fun c => c = '\x01').reverse

/-- CTCP sub-protocol: `VERSION` gets a fixed version reply, `PING`
echoes its token, anything else is ignored. -/

def h_CTCP (c : Conn) (l : Line) : Conn :=
  let payload := stripCtcp (lastArg l).data
  match fields payload with
  | [] => c
  | w :: _ =>
    if String.mk w = "VERSION" then
      c.send ("NOTICE " ++ l.nick ++ " :\x01VERSION powered by goirc...\x01")
    else if String.mk w = "PING" then
      c.send ("NOTICE " ++ l.nick ++ " :\x01PING " ++
        String.mk (payload.drop (w.length + 1)) ++ "\x01")
    else c

/-- `JOIN`: if the channel is untracked it should be us joining — any
other origin is an inconsistency (per `TestJOIN`'s error paths); on
creation query the channel's modes (`MODE`) and membership (`WHO`).  An
untracked joining nick is created and queried with `WHO`.  Finally the
membership edge is added; nothing is emitted when both entities were
already known. -/

def h_JOIN (c : Conn) (l : Line) : Conn :=
  let chname := argAt l 0
  match getChanId c.st chname with
  | none =>
    if getNickId c.st l.nick = some c.meId then
      let chid := c.st.nextId
      let c1 := c.withSt (t_newChannel c.st chname)
      let c2 := (c1.send ("MODE " ++ chname)).send ("WHO " ++ chname)
      c2.withSt (t_addNick c2.st chid c.meId)
    else c.err "JOIN: unknown channel from non-me nick"
  | some chid =>
    match getNickId c.st l.nick with
    | none =>
      let nid := c.st.nextId
      let c1 := c.withSt (t_newNick c.st l.nick l.ident "" l.host)
      let c2 := c1.send ("WHO " ++ l.nick)
      c2.withSt (t_addNick c2.st chid nid)
    | some nid => c.withSt (t_addNick c.st chid nid)

/-- `PART`: remove the membership edge between the originating nick and
the named channel; unknown channel, unknown nick or missing edge is an
inconsistency with no action. -/

def h_PART (c : Conn) (l : Line) : Conn :=
  match getChanId c.st (argAt l 0) with
  | none => c.err "PART: unknown channel"
  | some chid =>
    match getNickId c.st l.nick with
    | none => c.err "PART: unknown nick"
    | some nid =>
      if (chanPrivsAt c.st chid nid).isSome then
        c.withSt (t_remNick c.st chid nid)
      else c.err "PART: nick not on channel"

/-- `KICK`: like `PART`, with the kicked nick named in `Args[1]`. -/

def h_KICK (c : Conn) (l : Line) : Conn :=
  match getChanId c.st (argAt l 0) with
  | none => c.err "KICK: unknown channel"
  | some chid =>
    match getNickId c.st (argAt l 1) with
    | none => c.err "KICK: unknown nick"
    | some nid =>
      if (chanPrivsAt c.st chid nid).isSome then
        c.withSt (t_remNick c.st chid nid)
      else c.err "KICK: nick not on channel"

/-- `QUIT`: remove the originating nick from the tracker entirely, all
channel memberships purged; unknown nick is an inconsistency, reported
and ignored. -/

def h_QUIT (c : Conn) (l : Line) : Conn :=
  if (getNickId c.st l.nick).isSome then
    c.withSt (t_delNick c.st l.nick)
  else c.err "QUIT: unknown nick"

/-- `MODE`: dispatch to the mode codec against the named channel, or —
for user modes — against the named user, which must be `Me`; a mode
change for a tracked nick other than `Me` or for an unknown target is an
inconsistency with no action. -/

def h_MODE (c : Conn) (l : Line) : Conn :=
  let target := argAt l 0
  match getChanId c.st target with
  | some chid => parseChanModes c chid (argAt l 1) (l.args.drop 2)
  | none =>
    match getNickId c.st target with
    | some nid =>
      if nid = c.meId then c.withSt (parseNickModes c.st nid (argAt l 1))
      else c.err "MODE: mode change for non-me nick"
    | none => c.err "MODE: unknown target"

/-- `TOPIC`: set the named channel's topic to the trailing parameter;
unknown channel is an inconsistency. -/

def h_TOPIC (c : Conn) (l : Line) : Conn :=
  match getChanId c.st (argAt l 0) with
  | some chid => c.withSt (t_updChan c.st chid fun ci => { ci with topic := lastArg l })
  | none => c.err "TOPIC: unknown channel"

/-- `311` WHOIS user reply: populate Ident/Host/Name on the named nick;
unknown nick ignored. -/

def h_311 (c : Conn) (l : Line) : Conn :=
  match getNickId c.st (argAt l 1) with
  | some nid =>
    c.withSt (t_updNick c.st nid fun ni =>
      { ni with ident := argAt l 2, host := argAt l 3, name := lastArg l })
  | none => c.err "311: unknown nick"

/-- `324` channel modes reply: run the mode codec for the named
channel's attribute flags; unknown channel ignored. -/

def h_324 (c : Conn) (l : Line) : Conn :=
  match getChanId c.st (argAt l 1) with
  | some chid => parseChanModes c chid (argAt l 2) (l.args.drop 3)
  | none => c.err "324: unknown channel"

/-- `332` topic reply: set the named channel's topic. -/

def h_332 (c : Conn) (l : Line) : Conn :=
  match getChanId c.st (argAt l 1) with
  | some chid => c.withSt (t_updChan c.st chid fun ci => { ci with topic := lastArg l })
  | none => c.err "332: unknown channel"

/-- Everything after the first space (the WHO trailing field is
`"<hopcount> <realname>"`). -/

def afterFirstSpace : List Char → List Char
  | [] => []
  | c :: rest => if c = ' ' then rest else afterFirstSpace rest

/-- `352` WHO reply: populate Ident/Host/Name on the nick named in
`Args[5]` and fold the status-flag token (`Args[6]`) into its modes: a
token containing `H` sets Invisible, a `*` sets Oper; unknown nick
ignored. -/

def h_352 (c : Conn) (l : Line) : Conn :=
  match getNickId c.st (argAt l 5) with
  | some nid =>
    let flags := (argAt l 6).data
    c.withSt (t_updNick c.st nid fun ni =>
      let ni1 := { ni with
        ident := argAt l 2, host := argAt l 3
        name := String.mk (afterFirstSpace (lastArg l).data) }
      let ni2 := if '*' ∈ flags then { ni1 with modes := { ni1.modes with oper := true } } else ni1
      if 'H' ∈ flags then { ni2 with modes := { ni2.modes with invisible := true } } else ni2)
  | none => c.err "352: unknown nick"

/-- The privilege sigils of a NAMES reply. -/

def sigils : List Char := ['~', '&', '@', '%', '+']

/-- Merge the privilege implied by one sigil into a ChanPrivs value
(only ever sets flags, never clears them). -/

def sigPriv (s : Char) (p : ChanPrivs) : ChanPrivs :=
  { p with
    owner := p.owner || (s == '~')
    admin := p.admin || (s == '&')
    op := p.op || (s == '@')
    halfOp := p.halfOp || (s == '%')
    voice := p.voice || (s == '+') }

/-- Strip at most one leading sigil from a NAMES token. -/

def stripTok (t : List Char) : Option Char × List Char :=
  match t with
  | c :: rest => if c ∈ sigils then (some c, rest) else (none, t)
  | [] => (none, [])

/-- Look the named nick up, creating it (empty ident/host) if unseen. -/

def ensureNick (c : Conn) (n : String) : Conn × Nat :=
  match getNickId c.st n with
  | some nid => (c, nid)
  | none => (c.withSt (t_newNick c.st n "" "" ""), c.st.nextId)

/-- Process one NAMES token against a channel: create the nick if
unseen, add/merge the membership edge, then merge the sigil-implied
privilege. -/

def proc353 (chid : Nat) (c : Conn) (t : List Char) : Conn :=
  let s := stripTok t
  let r := ensureNick c (String.mk s.2)
  let c2 := r.1.withSt (t_addNick r.1.st chid r.2)
  match s.1 with
  | some sg => c2.withSt (t_setPrivs c2.st chid r.2 (sigPriv sg))
  | none => c2

/-- `353` NAMES reply: each whitespace token of the trailing parameter,
after stripping at most one leading privilege sigil, names a member of
the channel in `Args[2]`; successive replies accumulate.  Unknown
channel is an inconsistency. -/

def h_353 (c : Conn) (l : Line) : Conn :=
  match getChanId c.st (argAt l 2) with
  | some chid => (fields (lastArg l).data).foldl (proc353 chid) c
  | none => c.err "353: unknown channel"

/-- `671` (secure connection): set the named nick's SSL flag; unknown
nick ignored. -/

def h_671 (c : Conn) (l : Line) : Conn :=
  match getNickId c.st (argAt l 1) with
  | some nid =>
    c.withSt (t_updNick c.st nid fun ni => { ni with modes := { ni.modes with ssl := true } })
  | none => c.err "671: unknown nick"

/-- `PRIVMSG`: only the embedded CTCP sub-protocol mutates or replies. -/

def h_PRIVMSG (c : Conn) (l : Line) : Conn :=
  match (lastArg l).data with
  | '\x01' :: _ => h_CTCP c l
  | _ => c

/-- The event dispatcher's fan-out (§4.4) specialised to the handler
table of §4.5: route a parsed line to the handler registered for its
command; a command with no handler is a no-op. -/

def handle (c : Conn) (l : Line) : Conn :=
  if l.cmd = "PING" then h_PING c l
  else if l.cmd = "001" then h_001 c l
  else if l.cmd = "433" then h_433 c l
  else if l.cmd = "NICK" then h_NICK c l
  else if l.cmd = "JOIN" then h_JOIN c l
  else if l.cmd = "PART" then h_PART c l
  else if l.cmd = "KICK" then h_KICK c l
  else if l.cmd = "QUIT" then h_QUIT c l
  else if l.cmd = "MODE" then h_MODE c l
  else if l.cmd = "TOPIC" then h_TOPIC c l
  else if l.cmd = "311" then h_311 c l
  else if l.cmd = "324" then h_324 c l
  else if l.cmd = "332" then h_332 c l
  else if l.cmd = "352" then h_352 c l
  else if l.cmd = "353" then h_353 c l
  else if l.cmd = "671" then h_671 c l
  else if l.cmd = "PRIVMSG" then h_PRIVMSG c l
  else c

/-- One full pipeline step: parse a raw inbound line and dispatch it; a
parse failure drops the line (§4.1). -/

def processLine (c : Conn) (raw : String) : Conn :=
  match parseLine raw with
  | some l => handle c l
  | none => c

/-- Parse a raw line, defaulting to the empty line on failure (used to
feed the shipped tests' raw strings to individual handlers). -/

def parseLineD (raw : String) : Line := (parseLine raw).getD {}

/-! ## Reachability

A tracker state is reachable when it arises from a fresh connection by
any sequence of public tracker operations and handler invocations. -/

/-- One public operation on a connection. -/

inductive Op where
  | newNick (nick ident name host : String)
  | newChannel (name : String)
  | reNick (old neu : String)
  | delNick (name : String)
  | delChannel (name : String)
  | addNick (cn nn : String)
  | remNick (cn nn : String)
  | updNick (nid : Nat) (f : NickInfo → NickInfo)
  | updChan (chid : Nat) (f : ChanInfo → ChanInfo)
  | setPrivs (chid nid : Nat) (f : ChanPrivs → ChanPrivs)
  | handle (l : Line)
  | raw (s : String)

/-- Apply one operation. -/

def applyOp (c : Conn) : Op → Conn
  | .newNick n i r h => c.withSt (t_newNick c.st n i r h)
  | .newChannel n => c.withSt (t_newChannel c.st n)
  | .reNick o n => c.withSt (t_reNick c.st o n)
  | .delNick n => c.withSt (t_delNick c.st n)
  | .delChannel n => c.withSt (t_delChannel c.st n)
  | .addNick cn nn => c.withSt (t_addNickByName c.st cn nn)
  | .remNick cn nn =>
    match getChanId c.st cn, getNickId c.st nn with
    | some chid, some nid => c.withSt (t_remNick c.st chid nid)
    | _, _ => c
  | .updNick nid f => c.withSt (t_updNick c.st nid f)
  | .updChan chid f => c.withSt (t_updChan c.st chid f)
  | .setPrivs chid nid f => c.withSt (t_setPrivs c.st chid nid f)
  | .handle l => handle c l
  | .raw s => processLine c s

/-- Run a sequence of operations. -/

def run (c : Conn) (ops : List Op) : Conn := ops.foldl applyOp c

/-- A connection is reachable when some operation sequence from a fresh
connection produces it. -/

def Reachable (c : Conn) : Prop :=
  ∃ nick ident name ops, run (connNew nick ident name) ops = c

/-! ## The tracker invariant

`Inv` packages the referential-integrity guarantees of §3/§4.3: name
indexes have no duplicate keys, every indexed id has a live object,
object ids are below the allocator, and membership is mirrored. -/

/-- The tracker's internal consistency invariant. -/

structure Inv (st : Tracker) : Prop where
  ndN : (akeys st.nicks).Nodup
  ndC : (akeys st.chans).Nodup
  validN : ∀ n i, alook n st.nicks = some i → (alook i st.nickObjs).isSome
  validC : ∀ n i, alook n st.chans = some i → (alook i st.chanObjs).isSome
  freshN : ∀ i ∈ akeys st.nickObjs, i < st.nextId
  freshC : ∀ i ∈ akeys st.chanObjs, i < st.nextId
  mirror : Mirror st

/-! ## Derived lookups and fixtures -/

/-- The membership link between a channel name and a nick name: the
channel-side ChanPrivs entry, when both are tracked. -/

def linkAt (st : Tracker) (cn nn : String) : Option ChanPrivs :=
  match getChanId st cn, getNickId st nn with
  | some chid, some nid => chanPrivsAt st chid nid
  | _, _ => none

/-- The `setUp` connection of the handler tests: `New("test", "test",
"Testing IRC")`. -/

def setUpC : Conn := connNew "test" "test" "Testing IRC"

/-- The state `TestIsOn` builds: one fresh nick and one fresh channel. -/

def cIsOn : Conn := run setUpC [.newNick "test1" "" "" "", .newChannel "#test1"]

/-- The crossed two-nick state of `TestReNick`'s second half: the object
displayed as `test2` sits at key `test1` and vice versa. -/

def stCross : Tracker :=
  { nicks := [("test1", 1), ("test2", 0)]
    nickObjs :=
      [(0, { info := { nick := "test1" } }), (1, { info := { nick := "test2" } })]
    nextId := 2 }

/-- The `TestQUIT` state: `user1` on `#test1` and `#test2`, `Me` on both. -/

def cQUIT : Conn :=
  run setUpC [.newNick "user1" "ident1" "name one" "host1.com",
    .newChannel "#test1", .newChannel "#test2",
    .addNick "#test1" "user1", .addNick "#test2" "user1",
    .addNick "#test1" "test", .addNick "#test2" "test"]

/-- The `Test352` state: `user1` tracked with empty ident/host/name. -/

def c352pre : Conn := run setUpC [.newNick "user1" "" "" ""]

/-- The lines and intermediate states of the `TestJOIN` scenario. -/

def lJOIN1 : Line := parseLineD ":test!test@somehost.com JOIN :#test1"

/-- Second `TestJOIN` line: unknown `user1` joins the known channel. -/

def lJOIN2 : Line := parseLineD ":user1!ident1@host1.com JOIN :#test1"

/-- Third `TestJOIN` line: known `user2` joins the known channel. -/

def lJOIN3 : Line := parseLineD ":user2!ident2@host2.com JOIN :#test1"

/-- State after the local identity joined `#test1`. -/

def cJ1 : Conn := run setUpC [.handle lJOIN1]

/-- State after `user1` joined too and `user2` became known. -/

def cJ2 : Conn :=
  run setUpC [.handle lJOIN1, .handle lJOIN2, .newNick "user2" "ident2" "name two" "host2.com"]

/-! ## C6: the mode codec -/

/-- Every flag character the channel-mode codec recognises. -/

def knownChanFlags : List Char :=
  ['+', '-', 'i', 'm', 'n', 'p', 's', 't', 'k', 'l', 'q', 'a', 'o', 'h', 'v']

/-- Every flag character the user-mode codec recognises. -/

def knownUserFlags : List Char := ['+', '-', 'i', 'o', 'w', 'x', 'z']

/-- The `TestMODE` state: `user1` and the local identity on `#test1`. -/

def cMODE : Conn :=
  run setUpC [.newNick "user1" "ident1" "name one" "host1.com",
    .newChannel "#test1", .addNick "#test1" "user1", .addNick "#test1" "test"]

/-- The channel-mode line of `TestMODE`. -/

def lMODEchan : Line :=
  parseLineD ":user1!ident1@host1.com MODE #test1 +kisvo somekey test user1"

/-- The user-mode line of `TestMODE`. -/

def lMODEuser : Line := parseLineD ":test!test@somehost.com MODE test +ix"

/-! ## C5: the NAMES reply -/

/-- The privilege bit implied by one sigil. -/

def privOfSig (s : Char) (p : ChanPrivs) : Bool :=
  if s = '~' then p.owner
  else if s = '&' then p.admin
  else if s = '@' then p.op
  else if s = '%' then p.halfOp
  else if s = '+' then p.voice
  else false

/-- The `Test353` state: `#test1` tracked with `user1` and `Me` on it. -/

def c353pre : Conn :=
  run setUpC [.newChannel "#test1", .newNick "user1" "ident1" "name one" "host1.com",
    .addNick "#test1" "user1", .addNick "#test1" "test"]

/-- First `Test353` names reply (note the trailing space). -/

def l353a : Line := parseLineD ":irc.server.org 353 test = #test1 :test @user1 user2 +voice "

/-- Second `Test353` names reply. -/

def l353b : Line := parseLineD ":irc.server.org 353 test = #test1 :%halfop @op &admin ~owner "

/-- The tracker after both names replies. -/

def st353 : Tracker := (handle (handle c353pre l353a) l353b).st

section AssocLemmas

variable {κ : Type} {α : Type} [DecidableEq κ]

@[simp] theorem alook_nil {k : κ} : alook k ([] : List (κ × α)) = none := rfl

theorem alook_aerase_self {k : κ} {l : List (κ × α)} : alook k (aerase k l) = none := by
  induction l with
  | nil => rfl
  | cons p l ih =>
    by_cases h : p.1 = k <;> simp [aerase, alook, h, ih]

theorem alook_aerase_ne {k k' : κ} {l : List (κ × α)} (h : k' ≠ k) :
    alook k' (aerase k l) = alook k' l := by
  induction l with
  | nil => rfl
  | cons p l ih =>
    by_cases hp : p.1 = k
    · have hne : p.1 ≠ k' := fun hc => h (hc ▸ hp)
      simp [aerase, alook, if_pos hp, if_neg hne, ih]
    · by_cases hp' : p.1 = k'
      · simp [aerase, alook, if_neg hp, if_pos hp']
      · simp [aerase, alook, if_neg hp, if_neg hp', ih]

@[simp] theorem alook_aset_self {k : κ} {v : α} {l : List (κ × α)} :
    alook k (aset k v l) = some v := by
  simp [aset, alook]

theorem alook_aset_ne {k k' : κ} {v : α} {l : List (κ × α)} (h : k' ≠ k) :
    alook k' (aset k v l) = alook k' l := by
  have hne : k ≠ k' := fun hc => h hc.symm
  simp [aset, alook, if_neg hne, alook_aerase_ne h]

theorem alook_aupd_self {k : κ} {f : α → α} {l : List (κ × α)} :
    alook k (aupd k f l) = (alook k l).map f := by
  induction l with
  | nil => rfl
  | cons p l ih =>
    by_cases h : p.1 = k <;> simp [aupd, alook, h, ih]

theorem alook_aupd_ne {k k' : κ} {f : α → α} {l : List (κ × α)} (h : k' ≠ k) :
    alook k' (aupd k f l) = alook k' l := by
  induction l with
  | nil => rfl
  | cons p l ih =>
    by_cases hp : p.1 = k
    · have hne : p.1 ≠ k' := fun hc => h (hc ▸ hp)
      simp [aupd, alook, if_pos hp, if_neg hne, ih]
    · by_cases hp' : p.1 = k'
      · simp [aupd, alook, if_neg hp, if_pos hp']
      · simp [aupd, alook, if_neg hp, if_neg hp', ih]

theorem alook_map_snd {k : κ} {g : α → α} {l : List (κ × α)} :
    alook k (l.map fun p => (p.1, g p.2)) = (alook k l).map g := by
  induction l with
  | nil => rfl
  | cons p l ih => by_cases h : p.1 = k <;> simp [alook, h, ih]

theorem mem_akeys_cons {k : κ} {p : κ × α} {l : List (κ × α)} :
    k ∈ akeys (p :: l) ↔ p.1 = k ∨ k ∈ akeys l := by
  simp only [akeys, List.map_cons, List.mem_cons]
  constructor
  · rintro (h | h)
    · exact Or.inl h.symm
    · exact Or.inr h
  · rintro (h | h)
    · exact Or.inl h.symm
    · exact Or.inr h

theorem alook_eq_none_iff {k : κ} {l : List (κ × α)} :
    alook k l = none ↔ k ∉ akeys l := by
  induction l with
  | nil => simp [akeys]
  | cons p l ih =>
    by_cases h : p.1 = k
    · simp [alook, if_pos h, mem_akeys_cons, h]
    · simp [alook, if_neg h, mem_akeys_cons, h, ih]

theorem alook_mem {k : κ} {v : α} {l : List (κ × α)} (h : alook k l = some v) :
    (k, v) ∈ l := by
  induction l with
  | nil => simp [alook] at h
  | cons p l ih =>
    by_cases hp : p.1 = k
    · simp only [alook, if_pos hp, Option.some.injEq] at h
      have : p = (k, v) := by
        cases p
        simp_all
      exact this ▸ List.mem_cons_self _ _
    · simp only [alook, if_neg hp] at h
      exact List.mem_cons_of_mem _ (ih h)

theorem aerase_eq_self_of_alook_none {k : κ} {l : List (κ × α)} (h : alook k l = none) :
    aerase k l = l := by
  induction l with
  | nil => rfl
  | cons p l ih =>
    by_cases hp : p.1 = k
    · simp [alook, if_pos hp] at h
    · simp only [alook, if_neg hp] at h
      simp [aerase, if_neg hp, ih h]

theorem akeys_aupd {k : κ} {f : α → α} {l : List (κ × α)} :
    akeys (aupd k f l) = akeys l := by
  induction l with
  | nil => rfl
  | cons p l ih =>
    by_cases h : p.1 = k
    · simp only [aupd, if_pos h, akeys, List.map_cons]
      rw [show List.map Prod.fst (aupd k f l) = akeys (aupd k f l) from rfl, ih, akeys]
    · simp only [aupd, if_neg h, akeys, List.map_cons]
      rw [show List.map Prod.fst (aupd k f l) = akeys (aupd k f l) from rfl, ih, akeys]

theorem akeys_map_snd {g : α → α} {l : List (κ × α)} :
    akeys (l.map fun p => (p.1, g p.2)) = akeys l := by
  induction l with
  | nil => rfl
  | cons p l ih => simpa [akeys] using ih

theorem length_aupd {k : κ} {f : α → α} {l : List (κ × α)} :
    (aupd k f l).length = l.length := by
  induction l with
  | nil => rfl
  | cons p l ih => simp [aupd, ih]

theorem mem_akeys_aerase {k k' : κ} {l : List (κ × α)} (h : k' ∈ akeys (aerase k l)) :
    k' ∈ akeys l := by
  induction l with
  | nil => simpa [aerase, akeys] using h
  | cons p l ih =>
    by_cases hp : p.1 = k
    · rw [aerase, if_pos hp] at h
      exact mem_akeys_cons.mpr (Or.inr (ih h))
    · rw [aerase, if_neg hp] at h
      rcases mem_akeys_cons.mp h with h' | h'
      · exact mem_akeys_cons.mpr (Or.inl h')
      · exact mem_akeys_cons.mpr (Or.inr (ih h'))

theorem nodup_akeys_aerase {k : κ} {l : List (κ × α)} (h : (akeys l).Nodup) :
    (akeys (aerase k l)).Nodup := by
  induction l with
  | nil => simp [aerase, akeys]
  | cons p l ih =>
    have h1 : p.1 ∉ akeys l := by
      intro hc
      simp only [akeys, List.map_cons, List.nodup_cons] at h
      exact h.1 hc
    have h2 : (akeys l).Nodup := by
      simp only [akeys, List.map_cons, List.nodup_cons] at h
      exact h.2
    by_cases hp : p.1 = k
    · rw [aerase, if_pos hp]
      exact ih h2
    · rw [aerase, if_neg hp]
      simp only [akeys, List.map_cons, List.nodup_cons]
      exact ⟨fun hc => h1 (mem_akeys_aerase hc), ih h2⟩

theorem nodup_akeys_aset {k : κ} {v : α} {l : List (κ × α)} (h : (akeys l).Nodup) :
    (akeys (aset k v l)).Nodup := by
  rw [aset]
  simp only [akeys, List.map_cons, List.nodup_cons]
  refine ⟨?_, nodup_akeys_aerase h⟩
  intro hc
  have : alook k (aerase k l) = none := alook_aerase_self
  rw [alook_eq_none_iff] at this
  exact this hc

theorem length_aerase_of_alook_some {k : κ} {v : α} {l : List (κ × α)}
    (hn : (akeys l).Nodup) (h : alook k l = some v) :
    l.length = (aerase k l).length + 1 := by
  induction l with
  | nil => simp [alook] at h
  | cons p l ih =>
    have h1 : p.1 ∉ akeys l := by
      intro hc
      simp only [akeys, List.map_cons, List.nodup_cons] at hn
      exact hn.1 hc
    have h2 : (akeys l).Nodup := by
      simp only [akeys, List.map_cons, List.nodup_cons] at hn
      exact hn.2
    by_cases hp : p.1 = k
    · have hnone : alook k l = none := by
        rw [alook_eq_none_iff]
        exact hp ▸ h1
      simp [aerase, if_pos hp, aerase_eq_self_of_alook_none hnone]
    · simp only [alook, if_neg hp] at h
      simp only [aerase, if_neg hp, List.length_cons]
      rw [ih h2 h]

theorem length_aset_of_alook_none {k : κ} {v : α} {l : List (κ × α)}
    (h : alook k l = none) : (aset k v l).length = l.length + 1 := by
  simp [aset, aerase_eq_self_of_alook_none h]

theorem mem_akeys_of_alook_isSome {k : κ} {l : List (κ × α)}
    (h : (alook k l).isSome) : k ∈ akeys l := by
  by_contra hc
  rw [← alook_eq_none_iff] at hc
  rw [hc] at h
  simp at h

theorem mem_akeys_aset {k k' : κ} {v : α} {l : List (κ × α)}
    (h : k' ∈ akeys (aset k v l)) : k' = k ∨ k' ∈ akeys l := by
  rw [aset] at h
  rcases mem_akeys_cons.mp h with h' | h'
  · exact Or.inl h'.symm
  · exact Or.inr (mem_akeys_aerase h')

theorem alook_aupd_isSome {k k' : κ} {f : α → α} {l : List (κ × α)} :
    (alook k' (aupd k f l)).isSome = (alook k' l).isSome := by
  by_cases h : k' = k
  · subst h
    rw [alook_aupd_self]
    cases alook k' l <;> simp
  · rw [alook_aupd_ne h]

end AssocLemmas

/-- Under the freshness bound, the allocator's id is unbound. -/

theorem alook_nextId_nickObjs {st : Tracker} (inv : Inv st) :
    alook st.nextId st.nickObjs = none := by
  rw [alook_eq_none_iff]
  intro hc
  exact absurd (inv.freshN _ hc) (lt_irrefl _)

/-- Under the freshness bound, the allocator's id is unbound. -/

theorem alook_nextId_chanObjs {st : Tracker} (inv : Inv st) :
    alook st.nextId st.chanObjs = none := by
  rw [alook_eq_none_iff]
  intro hc
  exact absurd (inv.freshC _ hc) (lt_irrefl _)

/-! Characterisations of the membership lookups under each primitive. -/

theorem chanPrivsAt_updNick {st : Tracker} {nid : Nat} {f : NickInfo → NickInfo}
    {chid nid' : Nat} :
    chanPrivsAt (t_updNick st nid f) chid nid' = chanPrivsAt st chid nid' := rfl

theorem nickPrivsAt_updNick {st : Tracker} {nid : Nat} {f : NickInfo → NickInfo}
    {nid' chid : Nat} :
    nickPrivsAt (t_updNick st nid f) nid' chid = nickPrivsAt st nid' chid := by
  unfold nickPrivsAt getNickObj t_updNick
  by_cases h : nid' = nid
  · subst h
    rw [alook_aupd_self]
    cases alook nid' st.nickObjs <;> simp
  · rw [alook_aupd_ne h]

theorem nickPrivsAt_updChan {st : Tracker} {chid : Nat} {f : ChanInfo → ChanInfo}
    {nid' chid' : Nat} :
    nickPrivsAt (t_updChan st chid f) nid' chid' = nickPrivsAt st nid' chid' := rfl

theorem chanPrivsAt_updChan {st : Tracker} {chid : Nat} {f : ChanInfo → ChanInfo}
    {chid' nid' : Nat} :
    chanPrivsAt (t_updChan st chid f) chid' nid' = chanPrivsAt st chid' nid' := by
  unfold chanPrivsAt getChanObj t_updChan
  by_cases h : chid' = chid
  · subst h
    rw [alook_aupd_self]
    cases alook chid' st.chanObjs <;> simp
  · rw [alook_aupd_ne h]

theorem chanPrivsAt_setPrivs {st : Tracker} {chid nid : Nat} {f : ChanPrivs → ChanPrivs}
    {chid' nid' : Nat} :
    chanPrivsAt (t_setPrivs st chid nid f) chid' nid' =
      if chid' = chid ∧ nid' = nid then (chanPrivsAt st chid' nid').map f
      else chanPrivsAt st chid' nid' := by
  by_cases hc : chid' = chid
  · by_cases hn : nid' = nid
    · subst hc; subst hn
      rw [if_pos ⟨rfl, rfl⟩]
      unfold chanPrivsAt getChanObj t_setPrivs
      rw [alook_aupd_self]
      cases alook chid' st.chanObjs with
      | none => simp
      | some ch => simp [alook_aupd_self]
    · rw [if_neg (fun h : _ ∧ _ => hn h.2)]
      subst hc
      unfold chanPrivsAt getChanObj t_setPrivs
      rw [alook_aupd_self]
      cases alook chid' st.chanObjs with
      | none => simp
      | some ch => simp [alook_aupd_ne hn]
  · rw [if_neg (fun h : _ ∧ _ => hc h.1)]
    unfold chanPrivsAt getChanObj t_setPrivs
    rw [alook_aupd_ne hc]

theorem nickPrivsAt_setPrivs {st : Tracker} {chid nid : Nat} {f : ChanPrivs → ChanPrivs}
    {nid' chid' : Nat} :
    nickPrivsAt (t_setPrivs st chid nid f) nid' chid' =
      if chid' = chid ∧ nid' = nid then (nickPrivsAt st nid' chid').map f
      else nickPrivsAt st nid' chid' := by
  by_cases hn : nid' = nid
  · by_cases hc : chid' = chid
    · subst hc; subst hn
      rw [if_pos ⟨rfl, rfl⟩]
      unfold nickPrivsAt getNickObj t_setPrivs
      rw [alook_aupd_self]
      cases alook nid' st.nickObjs with
      | none => simp
      | some n => simp [alook_aupd_self]
    · rw [if_neg (fun h : _ ∧ _ => hc h.1)]
      subst hn
      unfold nickPrivsAt getNickObj t_setPrivs
      rw [alook_aupd_self]
      cases alook nid' st.nickObjs with
      | none => simp
      | some n => simp [alook_aupd_ne hc]
  · rw [if_neg (fun h : _ ∧ _ => hn h.2)]
    unfold nickPrivsAt getNickObj t_setPrivs
    rw [alook_aupd_ne hn]

theorem chanPrivsAt_remNick {st : Tracker} {chid nid : Nat} {chid' nid' : Nat} :
    chanPrivsAt (t_remNick st chid nid) chid' nid' =
      if chid' = chid ∧ nid' = nid then none
      else chanPrivsAt st chid' nid' := by
  by_cases hc : chid' = chid
  · by_cases hn : nid' = nid
    · subst hc; subst hn
      rw [if_pos ⟨rfl, rfl⟩]
      unfold chanPrivsAt getChanObj t_remNick
      rw [alook_aupd_self]
      cases alook chid' st.chanObjs with
      | none => simp
      | some ch => simp [alook_aerase_self]
    · rw [if_neg (fun h : _ ∧ _ => hn h.2)]
      subst hc
      unfold chanPrivsAt getChanObj t_remNick
      rw [alook_aupd_self]
      cases alook chid' st.chanObjs with
      | none => simp
      | some ch => simp [alook_aerase_ne hn]
  · rw [if_neg (fun h : _ ∧ _ => hc h.1)]
    unfold chanPrivsAt getChanObj t_remNick
    rw [alook_aupd_ne hc]

theorem nickPrivsAt_remNick {st : Tracker} {chid nid : Nat} {nid' chid' : Nat} :
    nickPrivsAt (t_remNick st chid nid) nid' chid' =
      if chid' = chid ∧ nid' = nid then none
      else nickPrivsAt st nid' chid' := by
  by_cases hn : nid' = nid
  · by_cases hc : chid' = chid
    · subst hc; subst hn
      rw [if_pos ⟨rfl, rfl⟩]
      unfold nickPrivsAt getNickObj t_remNick
      rw [alook_aupd_self]
      cases alook nid' st.nickObjs with
      | none => simp
      | some n => simp [alook_aerase_self]
    · rw [if_neg (fun h : _ ∧ _ => hc h.1)]
      subst hn
      unfold nickPrivsAt getNickObj t_remNick
      rw [alook_aupd_self]
      cases alook nid' st.nickObjs with
      | none => simp
      | some n => simp [alook_aerase_ne hc]
  · rw [if_neg (fun h : _ ∧ _ => hn h.2)]
    unfold nickPrivsAt getNickObj t_remNick
    rw [alook_aupd_ne hn]

/-! Invariant preservation, one primitive at a time. -/

theorem inv_updNick {st : Tracker} {nid : Nat} {f : NickInfo → NickInfo}
    (inv : Inv st) : Inv (t_updNick st nid f) := by
  refine ⟨inv.ndN, inv.ndC, ?_, inv.validC, ?_, inv.freshC, ?_⟩
  · intro n i h
    rw [show (t_updNick st nid f).nickObjs = aupd nid _ st.nickObjs from rfl,
      alook_aupd_isSome]
    exact inv.validN n i h
  · intro i hi
    rw [show (t_updNick st nid f).nickObjs = aupd nid _ st.nickObjs from rfl,
      akeys_aupd] at hi
    exact inv.freshN i hi
  · intro chid nid'
    rw [chanPrivsAt_updNick, nickPrivsAt_updNick]
    exact inv.mirror chid nid'

theorem inv_updChan {st : Tracker} {chid : Nat} {f : ChanInfo → ChanInfo}
    (inv : Inv st) : Inv (t_updChan st chid f) := by
  refine ⟨inv.ndN, inv.ndC, inv.validN, ?_, inv.freshN, ?_, ?_⟩
  · intro n i h
    rw [show (t_updChan st chid f).chanObjs = aupd chid _ st.chanObjs from rfl,
      alook_aupd_isSome]
    exact inv.validC n i h
  · intro i hi
    rw [show (t_updChan st chid f).chanObjs = aupd chid _ st.chanObjs from rfl,
      akeys_aupd] at hi
    exact inv.freshC i hi
  · intro chid' nid'
    rw [chanPrivsAt_updChan, nickPrivsAt_updChan]
    exact inv.mirror chid' nid'

theorem inv_setPrivs {st : Tracker} {chid nid : Nat} {f : ChanPrivs → ChanPrivs}
    (inv : Inv st) : Inv (t_setPrivs st chid nid f) := by
  refine ⟨inv.ndN, inv.ndC, ?_, ?_, ?_, ?_, ?_⟩
  · intro n i h
    rw [show (t_setPrivs st chid nid f).nickObjs = aupd nid _ st.nickObjs from rfl,
      alook_aupd_isSome]
    exact inv.validN n i h
  · intro n i h
    rw [show (t_setPrivs st chid nid f).chanObjs = aupd chid _ st.chanObjs from rfl,
      alook_aupd_isSome]
    exact inv.validC n i h
  · intro i hi
    rw [show (t_setPrivs st chid nid f).nickObjs = aupd nid _ st.nickObjs from rfl,
      akeys_aupd] at hi
    exact inv.freshN i hi
  · intro i hi
    rw [show (t_setPrivs st chid nid f).chanObjs = aupd chid _ st.chanObjs from rfl,
      akeys_aupd] at hi
    exact inv.freshC i hi
  · intro chid' nid'
    rw [chanPrivsAt_setPrivs, nickPrivsAt_setPrivs, inv.mirror chid' nid']

/-! Unfolding equations for the branching primitives. -/

theorem t_newNick_tracked {st : Tracker} {a b c d : String}
    (h : (alook a st.nicks).isSome) : t_newNick st a b c d = st := by
  simp [t_newNick, t_newNick?, h]

theorem t_newNick_untracked {st : Tracker} {a b c d : String}
    (h : alook a st.nicks = none) :
    t_newNick st a b c d =
      { st with
        nicks := aset a st.nextId st.nicks
        nickObjs := aset st.nextId
          { info := { nick := a, ident := b, host := d, name := c } } st.nickObjs
        nextId := st.nextId + 1 } := by
  simp [t_newNick, t_newNick?, h]

theorem t_newChannel_tracked {st : Tracker} {a : String}
    (h : (alook a st.chans).isSome) : t_newChannel st a = st := by
  simp [t_newChannel, t_newChannel?, h]

theorem t_newChannel_untracked {st : Tracker} {a : String}
    (h : alook a st.chans = none) :
    t_newChannel st a =
      { st with
        chans := aset a st.nextId st.chans
        chanObjs := aset st.nextId { info := { name := a } } st.chanObjs
        nextId := st.nextId + 1 } := by
  simp [t_newChannel, t_newChannel?, h]

theorem t_reNick_untracked {st : Tracker} {old neu : String}
    (h : alook old st.nicks = none) : t_reNick st old neu = st := by
  simp [t_reNick, h]

theorem t_reNick_occupied {st : Tracker} {old neu : String} {nid : Nat}
    (h : alook old st.nicks = some nid) (h2 : (alook neu st.nicks).isSome) :
    t_reNick st old neu = st := by
  simp [t_reNick, h, h2]

theorem t_reNick_move {st : Tracker} {old neu : String} {nid : Nat}
    (h : alook old st.nicks = some nid) (h2 : alook neu st.nicks = none) :
    t_reNick st old neu =
      { st with
        nicks := aset neu nid (aerase old st.nicks)
        nickObjs :=
          aupd nid (fun o => { o with info := { o.info with nick := neu } }) st.nickObjs } := by
  simp [t_reNick, h, h2]

theorem t_delNick_untracked {st : Tracker} {name : String}
    (h : alook name st.nicks = none) : t_delNick st name = st := by
  simp [t_delNick, h]

theorem t_delNick_tracked {st : Tracker} {name : String} {nid : Nat}
    (h : alook name st.nicks = some nid) :
    t_delNick st name =
      { st with
        nicks := aerase name st.nicks
        nickObjs := aupd nid (fun o => { o with channels := [] }) st.nickObjs
        chanObjs := st.chanObjs.map fun p => (p.1, purgeNick nid p.2) } := by
  simp [t_delNick, h]

theorem t_delChannel_untracked {st : Tracker} {name : String}
    (h : alook name st.chans = none) : t_delChannel st name = st := by
  simp [t_delChannel, h]

theorem t_delChannel_tracked {st : Tracker} {name : String} {chid : Nat}
    (h : alook name st.chans = some chid) :
    t_delChannel st name =
      { st with
        chans := aerase name st.chans
        chanObjs := aupd chid (fun o => { o with nicks := [] }) st.chanObjs
        nickObjs := st.nickObjs.map fun p => (p.1, purgeChan chid p.2) } := by
  simp [t_delChannel, h]

theorem t_addNick_no_chan {st : Tracker} {chid nid : Nat}
    (h : getChanObj st chid = none) : t_addNick st chid nid = st := by
  simp [t_addNick, h]

theorem t_addNick_no_nick {st : Tracker} {chid nid : Nat}
    (h : getNickObj st nid = none) : t_addNick st chid nid = st := by
  unfold t_addNick
  rw [h]
  cases getChanObj st chid <;> rfl

theorem t_addNick_linked {st : Tracker} {chid nid : Nat} {ch : ChanObj}
    (hc : getChanObj st chid = some ch) (h : (alook nid ch.nicks).isSome) :
    t_addNick st chid nid = st := by
  unfold t_addNick
  rw [hc]
  cases hn : getNickObj st nid <;> simp [h]

theorem t_addNick_new {st : Tracker} {chid nid : Nat} {ch : ChanObj} {n : NickObj}
    (hc : getChanObj st chid = some ch) (hn : getNickObj st nid = some n)
    (h : alook nid ch.nicks = none) :
    t_addNick st chid nid =
      { st with
        chanObjs := aupd chid (fun c => { c with nicks := aset nid {} c.nicks }) st.chanObjs
        nickObjs := aupd nid (fun x => { x with channels := aset chid {} x.channels }) st.nickObjs } := by
  unfold t_addNick
  rw [hc, hn]
  simp [h]

theorem inv_remNick {st : Tracker} {chid nid : Nat} (inv : Inv st) :
    Inv (t_remNick st chid nid) := by
  refine ⟨inv.ndN, inv.ndC, ?_, ?_, ?_, ?_, ?_⟩
  · intro n i h
    rw [show (t_remNick st chid nid).nickObjs = aupd nid _ st.nickObjs from rfl,
      alook_aupd_isSome]
    exact inv.validN n i h
  · intro n i h
    rw [show (t_remNick st chid nid).chanObjs = aupd chid _ st.chanObjs from rfl,
      alook_aupd_isSome]
    exact inv.validC n i h
  · intro i hi
    rw [show (t_remNick st chid nid).nickObjs = aupd nid _ st.nickObjs from rfl,
      akeys_aupd] at hi
    exact inv.freshN i hi
  · intro i hi
    rw [show (t_remNick st chid nid).chanObjs = aupd chid _ st.chanObjs from rfl,
      akeys_aupd] at hi
    exact inv.freshC i hi
  · intro chid' nid'
    rw [chanPrivsAt_remNick, nickPrivsAt_remNick, inv.mirror chid' nid']

theorem inv_newNick {st : Tracker} {a b c d : String} (inv : Inv st) :
    Inv (t_newNick st a b c d) := by
  cases h : alook a st.nicks with
  | some v =>
    rw [t_newNick_tracked (by simp [h])]
    exact inv
  | none =>
    rw [t_newNick_untracked h]
    refine ⟨?_, ?_, ?_, ?_, ?_, ?_, ?_⟩ <;> dsimp only
    · exact nodup_akeys_aset inv.ndN
    · exact inv.ndC
    · intro n i hl
      by_cases hn : n = a
      · subst hn
        rw [alook_aset_self] at hl
        cases hl
        simp [alook_aset_self]
      · rw [alook_aset_ne hn] at hl
        have := inv.validN n i hl
        by_cases hi : i = st.nextId
        · subst hi
          simp [alook_aset_self]
        · rwa [alook_aset_ne hi]
    · exact inv.validC
    · intro i hi
      rcases mem_akeys_aset hi with h' | h'
      · exact h' ▸ Nat.lt_succ_self _
      · exact Nat.lt_succ_of_lt (inv.freshN i h')
    · intro i hi
      exact Nat.lt_succ_of_lt (inv.freshC i hi)
    · intro chid nid
      unfold chanPrivsAt getChanObj nickPrivsAt getNickObj
      dsimp only
      by_cases hn : nid = st.nextId
      · subst hn
        rw [alook_aset_self]
        have hmm := inv.mirror chid st.nextId
        unfold chanPrivsAt getChanObj nickPrivsAt getNickObj at hmm
        rw [alook_nextId_nickObjs inv] at hmm
        simpa using hmm
      · rw [alook_aset_ne hn]
        exact inv.mirror chid nid

theorem inv_newChannel {st : Tracker} {a : String} (inv : Inv st) :
    Inv (t_newChannel st a) := by
  cases h : alook a st.chans with
  | some v =>
    rw [t_newChannel_tracked (by simp [h])]
    exact inv
  | none =>
    rw [t_newChannel_untracked h]
    refine ⟨?_, ?_, ?_, ?_, ?_, ?_, ?_⟩ <;> dsimp only
    · exact inv.ndN
    · exact nodup_akeys_aset inv.ndC
    · exact inv.validN
    · intro n i hl
      by_cases hn : n = a
      · subst hn
        rw [alook_aset_self] at hl
        cases hl
        simp [alook_aset_self]
      · rw [alook_aset_ne hn] at hl
        have := inv.validC n i hl
        by_cases hi : i = st.nextId
        · subst hi
          simp [alook_aset_self]
        · rwa [alook_aset_ne hi]
    · intro i hi
      exact Nat.lt_succ_of_lt (inv.freshN i hi)
    · intro i hi
      rcases mem_akeys_aset hi with h' | h'
      · exact h' ▸ Nat.lt_succ_self _
      · exact Nat.lt_succ_of_lt (inv.freshC i h')
    · intro chid nid
      unfold chanPrivsAt getChanObj nickPrivsAt getNickObj
      dsimp only
      by_cases hc : chid = st.nextId
      · subst hc
        rw [alook_aset_self]
        have hmm := inv.mirror st.nextId nid
        unfold chanPrivsAt getChanObj nickPrivsAt getNickObj at hmm
        rw [alook_nextId_chanObjs inv] at hmm
        refine Eq.trans ?_ hmm
        rfl
      · rw [alook_aset_ne hc]
        exact inv.mirror chid nid

theorem inv_reNick {st : Tracker} {old neu : String} (inv : Inv st) :
    Inv (t_reNick st old neu) := by
  cases h : alook old st.nicks with
  | none =>
    rw [t_reNick_untracked h]
    exact inv
  | some nid =>
    cases h2 : alook neu st.nicks with
    | some m =>
      rw [t_reNick_occupied h (by simp [h2])]
      exact inv
    | none =>
      rw [t_reNick_move h h2]
      refine ⟨?_, ?_, ?_, ?_, ?_, ?_, ?_⟩ <;> dsimp only
      · exact nodup_akeys_aset (nodup_akeys_aerase inv.ndN)
      · exact inv.ndC
      · intro n i hl
        by_cases hn : n = neu
        · subst hn
          rw [alook_aset_self] at hl
          cases hl
          rw [alook_aupd_isSome]
          exact inv.validN old nid h
        · rw [alook_aset_ne hn] at hl
          by_cases ho : n = old
          · subst ho
            rw [alook_aerase_self] at hl
            cases hl
          · rw [alook_aerase_ne ho] at hl
            rw [alook_aupd_isSome]
            exact inv.validN n i hl
      · exact inv.validC
      · intro i hi
        rw [akeys_aupd] at hi
        exact inv.freshN i hi
      · exact inv.freshC
      · intro chid nid'
        unfold chanPrivsAt getChanObj nickPrivsAt getNickObj
        dsimp only
        by_cases hn : nid' = nid
        · subst hn
          rw [alook_aupd_self]
          have := inv.mirror chid nid'
          unfold chanPrivsAt getChanObj nickPrivsAt getNickObj at this
          rw [this]
          cases alook nid' st.nickObjs <;> simp
        · rw [alook_aupd_ne hn]
          exact inv.mirror chid nid'

theorem inv_delNick {st : Tracker} {name : String} (inv : Inv st) :
    Inv (t_delNick st name) := by
  cases h : alook name st.nicks with
  | none =>
    rw [t_delNick_untracked h]
    exact inv
  | some nid =>
    rw [t_delNick_tracked h]
    refine ⟨?_, ?_, ?_, ?_, ?_, ?_, ?_⟩ <;> dsimp only
    · exact nodup_akeys_aerase inv.ndN
    · exact inv.ndC
    · intro n i hl
      by_cases hn : n = name
      · subst hn
        rw [alook_aerase_self] at hl
        cases hl
      · rw [alook_aerase_ne hn] at hl
        rw [alook_aupd_isSome]
        exact inv.validN n i hl
    · intro n i hl
      rw [alook_map_snd]
      have hv := inv.validC n i hl
      cases hcc : alook i st.chanObjs with
      | none => rw [hcc] at hv; simp at hv
      | some ch => simp
    · intro i hi
      rw [akeys_aupd] at hi
      exact inv.freshN i hi
    · intro i hi
      rw [akeys_map_snd] at hi
      exact inv.freshC i hi
    · intro chid nid'
      unfold chanPrivsAt getChanObj nickPrivsAt getNickObj
      dsimp only
      rw [alook_map_snd]
      by_cases hn : nid' = nid
      · subst hn
        rw [alook_aupd_self]
        cases alook chid st.chanObjs <;> cases alook nid' st.nickObjs <;>
          simp [purgeNick, alook_aerase_self]
      · rw [alook_aupd_ne hn]
        have hmir := inv.mirror chid nid'
        unfold chanPrivsAt getChanObj nickPrivsAt getNickObj at hmir
        rw [← hmir]
        cases alook chid st.chanObjs with
        | none => simp
        | some ch => simp [purgeNick, alook_aerase_ne hn]

theorem inv_delChannel {st : Tracker} {name : String} (inv : Inv st) :
    Inv (t_delChannel st name) := by
  cases h : alook name st.chans with
  | none =>
    rw [t_delChannel_untracked h]
    exact inv
  | some chid =>
    rw [t_delChannel_tracked h]
    refine ⟨?_, ?_, ?_, ?_, ?_, ?_, ?_⟩ <;> dsimp only
    · exact inv.ndN
    · exact nodup_akeys_aerase inv.ndC
    · intro n i hl
      rw [alook_map_snd]
      have hv := inv.validN n i hl
      cases hcc : alook i st.nickObjs with
      | none => rw [hcc] at hv; simp at hv
      | some o => simp
    · intro n i hl
      by_cases hn : n = name
      · subst hn
        rw [alook_aerase_self] at hl
        cases hl
      · rw [alook_aerase_ne hn] at hl
        rw [alook_aupd_isSome]
        exact inv.validC n i hl
    · intro i hi
      rw [akeys_map_snd] at hi
      exact inv.freshN i hi
    · intro i hi
      rw [akeys_aupd] at hi
      exact inv.freshC i hi
    · intro chid' nid'
      unfold chanPrivsAt getChanObj nickPrivsAt getNickObj
      dsimp only
      rw [alook_map_snd]
      by_cases hc : chid' = chid
      · subst hc
        rw [alook_aupd_self]
        cases alook chid' st.chanObjs <;> cases alook nid' st.nickObjs <;>
          simp [purgeChan, alook_aerase_self]
      · rw [alook_aupd_ne hc]
        have hmir := inv.mirror chid' nid'
        unfold chanPrivsAt getChanObj nickPrivsAt getNickObj at hmir
        rw [hmir]
        cases alook nid' st.nickObjs with
        | none => simp
        | some o => simp [purgeChan, alook_aerase_ne hc]

theorem inv_addNick {st : Tracker} {chid nid : Nat} (inv : Inv st) :
    Inv (t_addNick st chid nid) := by
  cases hc : getChanObj st chid with
  | none =>
    rw [t_addNick_no_chan hc]
    exact inv
  | some ch =>
    cases hn : getNickObj st nid with
    | none =>
      rw [t_addNick_no_nick hn]
      exact inv
    | some n =>
      cases hl : alook nid ch.nicks with
      | some p =>
        rw [t_addNick_linked hc (by simp [hl])]
        exact inv
      | none =>
        rw [t_addNick_new hc hn hl]
        unfold getChanObj at hc
        unfold getNickObj at hn
        refine ⟨?_, ?_, ?_, ?_, ?_, ?_, ?_⟩ <;> dsimp only
        · exact inv.ndN
        · exact inv.ndC
        · intro nm i hlk
          rw [alook_aupd_isSome]
          exact inv.validN nm i hlk
        · intro nm i hlk
          rw [alook_aupd_isSome]
          exact inv.validC nm i hlk
        · intro i hi
          rw [akeys_aupd] at hi
          exact inv.freshN i hi
        · intro i hi
          rw [akeys_aupd] at hi
          exact inv.freshC i hi
        · intro chid' nid'
          unfold chanPrivsAt getChanObj nickPrivsAt getNickObj
          dsimp only
          have hmir := inv.mirror chid' nid'
          unfold chanPrivsAt getChanObj nickPrivsAt getNickObj at hmir
          by_cases h1 : chid' = chid
          · subst h1
            rw [alook_aupd_self, hc]
            by_cases h2 : nid' = nid
            · subst h2
              rw [alook_aupd_self, hn]
              simp [alook_aset_self]
            · rw [alook_aupd_ne h2]
              rw [hc] at hmir
              rw [← hmir]
              simp [alook_aset_ne h2]
          · rw [alook_aupd_ne h1]
            by_cases h2 : nid' = nid
            · subst h2
              rw [alook_aupd_self, hn]
              rw [hn] at hmir
              rw [hmir]
              simp [alook_aset_ne h1]
            · rw [alook_aupd_ne h2]
              exact hmir

theorem inv_addNickByName {st : Tracker} {cn nn : String} (inv : Inv st) :
    Inv (t_addNickByName st cn nn) := by
  unfold t_addNickByName
  cases getChanId st cn <;> cases getNickId st nn <;> first
    | exact inv
    | exact inv_addNick inv

/-! Invariant preservation for the mode codec, the handlers and the full
operation set. -/

@[simp] theorem st_withSt {c : Conn} {st : Tracker} : (c.withSt st).st = st := rfl

@[simp] theorem st_send {c : Conn} {s : String} : (c.send s).st = c.st := rfl

@[simp] theorem st_err {c : Conn} {s : String} : (c.err s).st = c.st := rfl

theorem inv_chanModesGo {chid : Nat} (ms : List Char) :
    ∀ (b : Bool) (args : List String) (c : Conn),
      Inv c.st → Inv (chanModesGo chid ms b args c).st := by
  induction ms with
  | nil => exact fun b args c h => h
  | cons m rest ih =>
    intro b args c h
    unfold chanModesGo
    repeat' split
    all_goals (try apply ih)
    all_goals (try simp only [st_withSt, st_err, st_send])
    all_goals first
      | exact h
      | exact inv_updChan h
      | exact inv_setPrivs h

theorem inv_nickModesGo {nid : Nat} (ms : List Char) :
    ∀ (b : Bool) (st : Tracker), Inv st → Inv (nickModesGo nid ms b st) := by
  induction ms with
  | nil => exact fun b st h => h
  | cons m rest ih =>
    intro b st h
    unfold nickModesGo
    repeat' split
    all_goals (try apply ih)
    all_goals first
      | exact h
      | exact inv_updNick h

theorem inv_parseChanModes {c : Conn} {chid : Nat} {s : String} {args : List String}
    (h : Inv c.st) : Inv (parseChanModes c chid s args).st :=
  inv_chanModesGo _ _ _ _ h

theorem inv_parseNickModes {st : Tracker} {nid : Nat} {s : String}
    (h : Inv st) : Inv (parseNickModes st nid s) :=
  inv_nickModesGo _ _ _ h

theorem inv_proc353 {chid : Nat} {c : Conn} {t : List Char} (h : Inv c.st) :
    Inv (proc353 chid c t).st := by
  unfold proc353 ensureNick
  dsimp only
  repeat' split
  all_goals (try simp only [st_withSt, st_err, st_send])
  all_goals first
    | exact inv_setPrivs (inv_addNick h)
    | exact inv_addNick h
    | exact inv_setPrivs (inv_addNick (inv_newNick h))
    | exact inv_addNick (inv_newNick h)

theorem inv_foldl_proc353 {chid : Nat} (ts : List (List Char)) :
    ∀ c : Conn, Inv c.st → Inv (ts.foldl (proc353 chid) c).st := by
  induction ts with
  | nil => exact fun c h => h
  | cons t ts ih => exact fun c h => ih _ (inv_proc353 h)

theorem inv_h_PING {c : Conn} {l : Line} (h : Inv c.st) : Inv (h_PING c l).st := h

theorem inv_h_001 {c : Conn} {l : Line} (h : Inv c.st) : Inv (h_001 c l).st := by
  unfold h_001
  repeat' split
  all_goals (try simp only [st_withSt, st_err, st_send])
  all_goals first | exact h | exact inv_updNick h

theorem inv_h_433 {c : Conn} {l : Line} (h : Inv c.st) : Inv (h_433 c l).st := by
  unfold h_433
  dsimp only
  repeat' split
  all_goals (try simp only [st_withSt, st_err, st_send])
  all_goals first | exact h | exact inv_reNick h

theorem inv_h_NICK {c : Conn} {l : Line} (h : Inv c.st) : Inv (h_NICK c l).st := by
  unfold h_NICK
  repeat' split
  all_goals (try simp only [st_withSt, st_err, st_send])
  all_goals first | exact h | exact inv_reNick h

theorem inv_h_CTCP {c : Conn} {l : Line} (h : Inv c.st) : Inv (h_CTCP c l).st := by
  unfold h_CTCP
  dsimp only
  repeat' split
  all_goals exact h

theorem inv_h_PRIVMSG {c : Conn} {l : Line} (h : Inv c.st) : Inv (h_PRIVMSG c l).st := by
  unfold h_PRIVMSG
  repeat' split
  all_goals first | exact h | exact inv_h_CTCP h

theorem inv_h_JOIN {c : Conn} {l : Line} (h : Inv c.st) : Inv (h_JOIN c l).st := by
  unfold h_JOIN
  dsimp only
  repeat' split
  all_goals (try simp only [st_withSt, st_err, st_send])
  all_goals first
    | exact h
    | exact inv_addNick (inv_newChannel h)
    | exact inv_addNick (inv_newNick h)
    | exact inv_addNick h

theorem inv_h_PART {c : Conn} {l : Line} (h : Inv c.st) : Inv (h_PART c l).st := by
  unfold h_PART
  repeat' split
  all_goals (try simp only [st_withSt, st_err, st_send])
  all_goals first | exact h | exact inv_remNick h

theorem inv_h_KICK {c : Conn} {l : Line} (h : Inv c.st) : Inv (h_KICK c l).st := by
  unfold h_KICK
  repeat' split
  all_goals (try simp only [st_withSt, st_err, st_send])
  all_goals first | exact h | exact inv_remNick h

theorem inv_h_QUIT {c : Conn} {l : Line} (h : Inv c.st) : Inv (h_QUIT c l).st := by
  unfold h_QUIT
  repeat' split
  all_goals (try simp only [st_withSt, st_err, st_send])
  all_goals first | exact h | exact inv_delNick h

theorem inv_h_MODE {c : Conn} {l : Line} (h : Inv c.st) : Inv (h_MODE c l).st := by
  unfold h_MODE
  dsimp only
  repeat' split
  all_goals (try simp only [st_withSt, st_err, st_send])
  all_goals first
    | exact h
    | exact inv_parseChanModes h
    | exact inv_parseNickModes h

theorem inv_h_TOPIC {c : Conn} {l : Line} (h : Inv c.st) : Inv (h_TOPIC c l).st := by
  unfold h_TOPIC
  repeat' split
  all_goals (try simp only [st_withSt, st_err, st_send])
  all_goals first | exact h | exact inv_updChan h

theorem inv_h_311 {c : Conn} {l : Line} (h : Inv c.st) : Inv (h_311 c l).st := by
  unfold h_311
  repeat' split
  all_goals (try simp only [st_withSt, st_err, st_send])
  all_goals first | exact h | exact inv_updNick h

theorem inv_h_324 {c : Conn} {l : Line} (h : Inv c.st) : Inv (h_324 c l).st := by
  unfold h_324
  repeat' split
  all_goals (try simp only [st_withSt, st_err, st_send])
  all_goals first | exact h | exact inv_parseChanModes h

theorem inv_h_332 {c : Conn} {l : Line} (h : Inv c.st) : Inv (h_332 c l).st := by
  unfold h_332
  repeat' split
  all_goals (try simp only [st_withSt, st_err, st_send])
  all_goals first | exact h | exact inv_updChan h

theorem inv_h_352 {c : Conn} {l : Line} (h : Inv c.st) : Inv (h_352 c l).st := by
  unfold h_352
  dsimp only
  repeat' split
  all_goals (try simp only [st_withSt, st_err, st_send])
  all_goals first | exact h | exact inv_updNick h

theorem inv_h_353 {c : Conn} {l : Line} (h : Inv c.st) : Inv (h_353 c l).st := by
  unfold h_353
  repeat' split
  all_goals (try simp only [st_withSt, st_err, st_send])
  all_goals first | exact h | exact inv_foldl_proc353 _ _ h

theorem inv_h_671 {c : Conn} {l : Line} (h : Inv c.st) : Inv (h_671 c l).st := by
  unfold h_671
  repeat' split
  all_goals (try simp only [st_withSt, st_err, st_send])
  all_goals first | exact h | exact inv_updNick h

theorem inv_handle {c : Conn} {l : Line} (h : Inv c.st) : Inv (handle c l).st := by
  unfold handle
  by_cases e0 : l.cmd = "PING"
  · rw [if_pos e0]
    exact inv_h_PING h
  rw [if_neg e0]
  by_cases e1 : l.cmd = "001"
  · rw [if_pos e1]
    exact inv_h_001 h
  rw [if_neg e1]
  by_cases e2 : l.cmd = "433"
  · rw [if_pos e2]
    exact inv_h_433 h
  rw [if_neg e2]
  by_cases e3 : l.cmd = "NICK"
  · rw [if_pos e3]
    exact inv_h_NICK h
  rw [if_neg e3]
  by_cases e4 : l.cmd = "JOIN"
  · rw [if_pos e4]
    exact inv_h_JOIN h
  rw [if_neg e4]
  by_cases e5 : l.cmd = "PART"
  · rw [if_pos e5]
    exact inv_h_PART h
  rw [if_neg e5]
  by_cases e6 : l.cmd = "KICK"
  · rw [if_pos e6]
    exact inv_h_KICK h
  rw [if_neg e6]
  by_cases e7 : l.cmd = "QUIT"
  · rw [if_pos e7]
    exact inv_h_QUIT h
  rw [if_neg e7]
  by_cases e8 : l.cmd = "MODE"
  · rw [if_pos e8]
    exact inv_h_MODE h
  rw [if_neg e8]
  by_cases e9 : l.cmd = "TOPIC"
  · rw [if_pos e9]
    exact inv_h_TOPIC h
  rw [if_neg e9]
  by_cases e10 : l.cmd = "311"
  · rw [if_pos e10]
    exact inv_h_311 h
  rw [if_neg e10]
  by_cases e11 : l.cmd = "324"
  · rw [if_pos e11]
    exact inv_h_324 h
  rw [if_neg e11]
  by_cases e12 : l.cmd = "332"
  · rw [if_pos e12]
    exact inv_h_332 h
  rw [if_neg e12]
  by_cases e13 : l.cmd = "352"
  · rw [if_pos e13]
    exact inv_h_352 h
  rw [if_neg e13]
  by_cases e14 : l.cmd = "353"
  · rw [if_pos e14]
    exact inv_h_353 h
  rw [if_neg e14]
  by_cases e15 : l.cmd = "671"
  · rw [if_pos e15]
    exact inv_h_671 h
  rw [if_neg e15]
  by_cases e16 : l.cmd = "PRIVMSG"
  · rw [if_pos e16]
    exact inv_h_PRIVMSG h
  rw [if_neg e16]
  exact h

/-! Dispatch equations: route each command to its handler. -/

theorem handle_cmd_PING {c : Conn} {l : Line} (h : l.cmd = "PING") :
    handle c l = h_PING c l := by
  simp [handle, h]

theorem handle_cmd_001 {c : Conn} {l : Line} (h : l.cmd = "001") :
    handle c l = h_001 c l := by
  simp [handle, h]

theorem handle_cmd_433 {c : Conn} {l : Line} (h : l.cmd = "433") :
    handle c l = h_433 c l := by
  simp [handle, h]

theorem handle_cmd_NICK {c : Conn} {l : Line} (h : l.cmd = "NICK") :
    handle c l = h_NICK c l := by
  simp [handle, h]

theorem handle_cmd_JOIN {c : Conn} {l : Line} (h : l.cmd = "JOIN") :
    handle c l = h_JOIN c l := by
  simp [handle, h]

theorem handle_cmd_PART {c : Conn} {l : Line} (h : l.cmd = "PART") :
    handle c l = h_PART c l := by
  simp [handle, h]

theorem handle_cmd_KICK {c : Conn} {l : Line} (h : l.cmd = "KICK") :
    handle c l = h_KICK c l := by
  simp [handle, h]

theorem handle_cmd_QUIT {c : Conn} {l : Line} (h : l.cmd = "QUIT") :
    handle c l = h_QUIT c l := by
  simp [handle, h]

theorem handle_cmd_MODE {c : Conn} {l : Line} (h : l.cmd = "MODE") :
    handle c l = h_MODE c l := by
  simp [handle, h]

theorem handle_cmd_TOPIC {c : Conn} {l : Line} (h : l.cmd = "TOPIC") :
    handle c l = h_TOPIC c l := by
  simp [handle, h]

theorem handle_cmd_311 {c : Conn} {l : Line} (h : l.cmd = "311") :
    handle c l = h_311 c l := by
  simp [handle, h]

theorem handle_cmd_324 {c : Conn} {l : Line} (h : l.cmd = "324") :
    handle c l = h_324 c l := by
  simp [handle, h]

theorem handle_cmd_332 {c : Conn} {l : Line} (h : l.cmd = "332") :
    handle c l = h_332 c l := by
  simp [handle, h]

theorem handle_cmd_352 {c : Conn} {l : Line} (h : l.cmd = "352") :
    handle c l = h_352 c l := by
  simp [handle, h]

theorem handle_cmd_353 {c : Conn} {l : Line} (h : l.cmd = "353") :
    handle c l = h_353 c l := by
  simp [handle, h]

theorem handle_cmd_671 {c : Conn} {l : Line} (h : l.cmd = "671") :
    handle c l = h_671 c l := by
  simp [handle, h]

theorem handle_cmd_PRIVMSG {c : Conn} {l : Line} (h : l.cmd = "PRIVMSG") :
    handle c l = h_PRIVMSG c l := by
  simp [handle, h]

theorem inv_applyOp {c : Conn} (op : Op) (h : Inv c.st) : Inv (applyOp c op).st := by
  cases op <;> unfold applyOp <;> (try unfold processLine) <;> (repeat' split) <;>
    (try simp only [st_withSt, st_err, st_send]) <;>
    first
      | exact h
      | exact inv_newNick h
      | exact inv_newChannel h
      | exact inv_reNick h
      | exact inv_delNick h
      | exact inv_delChannel h
      | exact inv_addNickByName h
      | exact inv_remNick h
      | exact inv_updNick h
      | exact inv_updChan h
      | exact inv_setPrivs h
      | exact inv_handle h

theorem inv_run {ops : List Op} : ∀ {c : Conn}, Inv c.st → Inv (run c ops).st := by
  induction ops with
  | nil => exact fun h => h
  | cons op ops ih => exact fun h => ih (inv_applyOp op h)

/-- The empty tracker satisfies the invariant. -/

theorem inv_empty : Inv ({} : Tracker) := by
  refine ⟨List.nodup_nil, List.nodup_nil, ?_, ?_, ?_, ?_, ?_⟩
  · intro n i hl
    cases hl
  · intro n i hl
    cases hl
  · intro i hi
    cases hi
  · intro i hi
    cases hi
  · intro chid nid
    rfl

/-- A fresh connection satisfies the invariant. -/

theorem inv_connNew {nick ident name : String} : Inv (connNew nick ident name).st :=
  inv_newNick inv_empty

/-- Every reachable connection's tracker satisfies the invariant — in
particular referential integrity and the membership mirror hold in every
reachable state. -/

theorem reachable_inv {c : Conn} (h : Reachable c) : Inv c.st := by
  obtain ⟨nick, ident, name, ops, rfl⟩ := h
  exact inv_run inv_connNew

/-! Name maps are untouched by membership-edge mutation. -/

theorem getNickId_addNick {st : Tracker} {a b : Nat} {n : String} :
    getNickId (t_addNick st a b) n = getNickId st n := by
  unfold t_addNick
  repeat' split
  all_goals rfl

theorem getChanId_addNick {st : Tracker} {a b : Nat} {n : String} :
    getChanId (t_addNick st a b) n = getChanId st n := by
  unfold t_addNick
  repeat' split
  all_goals rfl

theorem chanPrivsAt_addNick_self {st : Tracker} {chid nid : Nat} {ch : ChanObj}
    {n : NickObj} (inv : Inv st) (hc : getChanObj st chid = some ch)
    (hn : getNickObj st nid = some n) :
    (chanPrivsAt (t_addNick st chid nid) chid nid).isSome ∧
      (nickPrivsAt (t_addNick st chid nid) nid chid).isSome := by
  cases hl : alook nid ch.nicks with
  | some p =>
    rw [t_addNick_linked hc (by simp [hl])]
    have h1 : chanPrivsAt st chid nid = some p := by
      unfold chanPrivsAt
      rw [hc]
      simpa using hl
    have h2 := inv.mirror chid nid
    rw [h1] at h2
    simp [h1, ← h2]
  | none =>
    rw [t_addNick_new hc hn hl]
    constructor
    · unfold chanPrivsAt getChanObj
      dsimp only
      rw [alook_aupd_self]
      unfold getChanObj at hc
      rw [hc]
      simp [alook_aset_self]
    · unfold nickPrivsAt getNickObj
      dsimp only
      rw [alook_aupd_self]
      unfold getNickObj at hn
      rw [hn]
      simp [alook_aset_self]

/-! Building the invariant for concrete fixture states by finite checks. -/

theorem mirror_of_memb {st : Tracker}
    (h1 : ∀ p ∈ st.chanObjs, ∀ q ∈ p.2.nicks, nickPrivsAt st q.1 p.1 = some q.2)
    (h2 : ∀ p ∈ st.nickObjs, ∀ q ∈ p.2.channels, chanPrivsAt st q.1 p.1 = some q.2) :
    Mirror st := by
  intro chid nid
  show chanPrivsAt st chid nid = nickPrivsAt st nid chid
  cases hch : alook chid st.chanObjs with
  | none =>
    cases hnk : alook nid st.nickObjs with
    | none =>
      unfold chanPrivsAt getChanObj nickPrivsAt getNickObj
      rw [hch, hnk]
      rfl
    | some o =>
      cases hoc : alook chid o.channels with
      | none =>
        unfold chanPrivsAt getChanObj nickPrivsAt getNickObj
        rw [hch, hnk]
        simp [hoc]
      | some p =>
        have hx := h2 (nid, o) (alook_mem hnk) (chid, p) (alook_mem hoc)
        unfold chanPrivsAt getChanObj at hx
        rw [hch] at hx
        cases hx
  | some ch =>
    cases hcn : alook nid ch.nicks with
    | none =>
      cases hnk : alook nid st.nickObjs with
      | none =>
        unfold chanPrivsAt getChanObj nickPrivsAt getNickObj
        rw [hch, hnk]
        simp [hcn]
      | some o =>
        cases hoc : alook chid o.channels with
        | none =>
          unfold chanPrivsAt getChanObj nickPrivsAt getNickObj
          rw [hch, hnk]
          simp [hcn, hoc]
        | some p =>
          have hx := h2 (nid, o) (alook_mem hnk) (chid, p) (alook_mem hoc)
          unfold chanPrivsAt getChanObj at hx
          rw [hch] at hx
          simp [hcn] at hx
    | some p =>
      have hx := h1 (chid, ch) (alook_mem hch) (nid, p) (alook_mem hcn)
      unfold chanPrivsAt getChanObj
      rw [hch]
      simp only [Option.some_bind]
      rw [hcn, hx]

theorem inv_of_checks {st : Tracker}
    (h1 : (akeys st.nicks).Nodup) (h2 : (akeys st.chans).Nodup)
    (h3 : ∀ p ∈ st.nicks, (alook p.2 st.nickObjs).isSome)
    (h4 : ∀ p ∈ st.chans, (alook p.2 st.chanObjs).isSome)
    (h5 : ∀ p ∈ st.nickObjs, p.1 < st.nextId)
    (h6 : ∀ p ∈ st.chanObjs, p.1 < st.nextId)
    (h7 : ∀ p ∈ st.chanObjs, ∀ q ∈ p.2.nicks, nickPrivsAt st q.1 p.1 = some q.2)
    (h8 : ∀ p ∈ st.nickObjs, ∀ q ∈ p.2.channels, chanPrivsAt st q.1 p.1 = some q.2) :
    Inv st := by
  refine ⟨h1, h2, ?_, ?_, ?_, ?_, mirror_of_memb h7 h8⟩
  · intro n i hl
    exact h3 _ (alook_mem hl)
  · intro n i hl
    exact h4 _ (alook_mem hl)
  · intro i hi
    obtain ⟨p, hp, rfl⟩ := List.mem_map.mp hi
    exact h5 p hp
  · intro i hi
    obtain ⟨p, hp, rfl⟩ := List.mem_map.mp hi
    exact h6 p hp

theorem inv_stCross : Inv stCross :=
  inv_of_checks (by decide) (by decide) (by decide) (by decide) (by decide)
    (by decide) (by decide) (by decide)

/-- **C1.**  In every reachable tracker state the membership mirror holds:
`channel.Nicks[nick]` exists iff `nick.Channels[channel]` exists with the
same ChanPrivs value; every operation — the tracker operations and every
protocol handler — preserves the mirror; `IsOn(chan, nick)` is false
while no membership link exists and true immediately after `AddNick`. -/

theorem c1_membership_mirror :
    ∀ c : Conn, Reachable c →
      Mirror c.st ∧
      (∀ op : Op, Mirror (applyOp c op).st) ∧
      (∀ cn nn, linkAt c.st cn nn = none → isOn c.st cn nn = false) ∧
      (∀ cn nn, (getChanId c.st cn).isSome → (getNickId c.st nn).isSome →
        isOn (t_addNickByName c.st cn nn) cn nn = true) := by
  intro c hr
  have inv := reachable_inv hr
  refine ⟨inv.mirror, fun op => (inv_applyOp op inv).mirror, ?_, ?_⟩
  · intro cn nn hnone
    unfold linkAt at hnone
    unfold isOn
    cases hc : getChanId c.st cn with
    | none => rfl
    | some chid =>
      cases hn : getNickId c.st nn with
      | none => rfl
      | some nid =>
        rw [hc, hn] at hnone
        dsimp only at hnone ⊢
        simp [hnone]
  · intro cn nn hcs hns
    obtain ⟨chid, hc⟩ := Option.isSome_iff_exists.mp hcs
    obtain ⟨nid, hn⟩ := Option.isSome_iff_exists.mp hns
    obtain ⟨ch, hco⟩ := Option.isSome_iff_exists.mp (inv.validC cn chid hc)
    obtain ⟨n, hno⟩ := Option.isSome_iff_exists.mp (inv.validN nn nid hn)
    have hadd : t_addNickByName c.st cn nn = t_addNick c.st chid nid := by
      unfold t_addNickByName
      rw [hc, hn]
    rw [hadd]
    have hpr := chanPrivsAt_addNick_self inv hco hno
    unfold isOn
    rw [getChanId_addNick, getNickId_addNick, hc, hn]
    simp [hpr.1, hpr.2]

/-- Witness for C1 at the `TestIsOn` scenario: before `AddNick` the two
fresh entities are not linked and `IsOn` is false; after `AddNick` it is
true. -/

theorem c1_membership_mirror_witness :
    isOn cIsOn.st "#test1" "test1" = false ∧
    isOn (t_addNickByName cIsOn.st "#test1" "test1") "#test1" "test1" = true := by
  have h := c1_membership_mirror cIsOn
    ⟨"test", "test", "Testing IRC", [.newNick "test1" "" "" "", .newChannel "#test1"], rfl⟩
  exact ⟨h.2.2.1 "#test1" "test1" (by decide),
    h.2.2.2 "#test1" "test1" (by decide) (by decide)⟩

/-- **C2 (amended).**  `ReNick(old, new)` with `old` tracked and `new`
unoccupied moves the identity at key `old` to key `new` preserving the
same object (same id, same memberships, display nick updated), leaves
`old` absent and keeps the tracker size unchanged; if `new` is already
occupied `ReNick` changes nothing (per `TestReNick`, neither entry is
displaced or dropped); if `old` does not exist it is a no-op. -/

theorem c2_renick :
    ∀ (st : Tracker) (old neu : String) (nid : Nat), Inv st →
      (alook old st.nicks = some nid → alook neu st.nicks = none →
        getNickId (t_reNick st old neu) neu = some nid ∧
        getNickId (t_reNick st old neu) old = none ∧
        (∃ o, getNickObj st nid = some o ∧
          getNickObj (t_reNick st old neu) nid =
            some { o with info := { o.info with nick := neu } }) ∧
        (t_reNick st old neu).nicks.length = st.nicks.length) ∧
      ((alook neu st.nicks).isSome → t_reNick st old neu = st) ∧
      (alook old st.nicks = none → t_reNick st old neu = st) := by
  intro st old neu nid inv
  refine ⟨?_, ?_, fun h => t_reNick_untracked h⟩
  · intro h h2
    have hne : old ≠ neu := by
      intro hc
      rw [hc, h2] at h
      cases h
    rw [t_reNick_move h h2]
    refine ⟨?_, ?_, ?_, ?_⟩
    · exact alook_aset_self
    · show alook old (aset neu nid (aerase old st.nicks)) = none
      rw [alook_aset_ne hne, alook_aerase_self]
    · obtain ⟨o, ho⟩ := Option.isSome_iff_exists.mp (inv.validN old nid h)
      refine ⟨o, ho, ?_⟩
      show alook nid (aupd nid _ st.nickObjs) = _
      rw [alook_aupd_self, ho]
      rfl
    · show (aset neu nid (aerase old st.nicks)).length = st.nicks.length
      have h2' : alook neu (aerase old st.nicks) = none := by
        rw [alook_aerase_ne (fun hc => hne hc.symm)]
        exact h2
      rw [length_aset_of_alook_none h2']
      exact (length_aerase_of_alook_some inv.ndN h).symm
  · intro h2
    cases h : alook old st.nicks with
    | none => exact t_reNick_untracked h
    | some m => exact t_reNick_occupied h h2

/-- Witness for C2 at the `TestReNick` scenario. -/

theorem c2_renick_witness :
    (getNickId (t_reNick cIsOn.st "test1" "test2") "test2" = some 1 ∧
      getNickId (t_reNick cIsOn.st "test1" "test2") "test1" = none ∧
      (t_reNick cIsOn.st "test1" "test2").nicks.length = cIsOn.st.nicks.length) ∧
    t_reNick stCross "test1" "test2" = stCross := by
  have inv1 : Inv cIsOn.st := reachable_inv ⟨"test", "test", "Testing IRC",
    [.newNick "test1" "" "" "", .newChannel "#test1"], rfl⟩
  have h1 := (c2_renick cIsOn.st "test1" "test2" 1 inv1).1 (by decide) (by decide)
  have h2 := (c2_renick stCross "test1" "test2" 1 inv_stCross).2.1 (by decide)
  exact ⟨⟨h1.1, h1.2.1, h1.2.2.2⟩, h2⟩

/-- Counterexample to C2 as stated: at `TestReNick`'s crossed state the
occupant of the occupied destination is *not* displaced into the old
key — the rename is a no-op, both entries keep their names. -/

theorem c2_renick_counterexample :
    getNickId stCross "test1" = some 1 ∧
    getNickId stCross "test2" = some 0 ∧
    t_reNick stCross "test1" "test2" = stCross ∧
    ¬ getNickId (t_reNick stCross "test1" "test2") "test1" = some 0 := by
  decide

/-- **C7.**  `DelNick(n)` for a tracked nick removes it from the tracker
and removes the mirrored membership entry from every channel it was on;
for an untracked name it is a no-op (no size change, no error surfaced);
a `QUIT` for an unknown nick is reported as an inconsistency, mutates
nothing and emits nothing. -/

theorem c7_delnick_quit :
    ∀ (st : Tracker) (nm : String) (nid : Nat) (c : Conn) (l : Line), Inv st →
      (alook nm st.nicks = some nid →
        getNickId (t_delNick st nm) nm = none ∧
        (∀ chid, chanPrivsAt (t_delNick st nm) chid nid = none) ∧
        (∀ chid, nickPrivsAt (t_delNick st nm) nid chid = none) ∧
        (t_delNick st nm).nicks.length + 1 = st.nicks.length) ∧
      (alook nm st.nicks = none → t_delNick st nm = st) ∧
      (l.cmd = "QUIT" → getNickId c.st l.nick = none →
        (handle c l).st = c.st ∧ (handle c l).out = c.out ∧
        (handle c l).errs = c.errs ++ ["QUIT: unknown nick"]) := by
  intro st nm nid c l inv
  refine ⟨?_, fun h => t_delNick_untracked h, ?_⟩
  · intro h
    rw [t_delNick_tracked h]
    refine ⟨?_, ?_, ?_, ?_⟩
    · show alook nm (aerase nm st.nicks) = none
      exact alook_aerase_self
    · intro chid
      unfold chanPrivsAt getChanObj
      dsimp only
      rw [alook_map_snd]
      cases alook chid st.chanObjs with
      | none => rfl
      | some ch => simp [purgeNick, alook_aerase_self]
    · intro chid
      unfold nickPrivsAt getNickObj
      dsimp only
      rw [alook_aupd_self]
      cases alook nid st.nickObjs <;> simp
    · show (aerase nm st.nicks).length + 1 = st.nicks.length
      exact (length_aerase_of_alook_some inv.ndN h).symm
  · intro hcmd hnone
    rw [handle_cmd_QUIT hcmd]
    unfold h_QUIT
    rw [hnone]
    exact ⟨rfl, rfl, rfl⟩

/-- Witness for C7: deleting `user1` from the `TestQUIT` state empties
its memberships and its index entry; a `QUIT` from the unknown `user2`
against the fresh connection changes nothing and emits nothing. -/

theorem c7_delnick_quit_witness :
    (getNickId (t_delNick cQUIT.st "user1") "user1" = none ∧
      chanPrivsAt (t_delNick cQUIT.st "user1") 2 1 = none ∧
      (t_delNick cQUIT.st "user1").nicks.length + 1 = cQUIT.st.nicks.length) ∧
    ((handle setUpC (parseLineD ":user2!ident2@host2.com QUIT :Bye!")).st = setUpC.st ∧
      (handle setUpC (parseLineD ":user2!ident2@host2.com QUIT :Bye!")).out = setUpC.out) := by
  have inv1 : Inv cQUIT.st := reachable_inv ⟨"test", "test", "Testing IRC",
    [.newNick "user1" "ident1" "name one" "host1.com",
      .newChannel "#test1", .newChannel "#test2",
      .addNick "#test1" "user1", .addNick "#test2" "user1",
      .addNick "#test1" "test", .addNick "#test2" "test"], rfl⟩
  have h1 := (c7_delnick_quit cQUIT.st "user1" 1 setUpC
    (parseLineD ":user2!ident2@host2.com QUIT :Bye!") inv1).1 (by decide)
  have h2 := (c7_delnick_quit cQUIT.st "user1" 1 setUpC
    (parseLineD ":user2!ident2@host2.com QUIT :Bye!") inv1).2.2 (by decide) (by decide)
  exact ⟨⟨h1.1, h1.2.1 2, h1.2.2.2⟩, h2.1, h2.2.1⟩

/-- **C8.**  The first `NewNick(n)` (resp. `NewChannel(n)`) creates and
indexes a fresh object and returns it; a second call with the same name
returns nothing and leaves the tracker — its size and the object stored
under `n` included — completely unchanged. -/

theorem c8_new_duplicate :
    ∀ (st : Tracker) (nick i1 n1 h1 i2 n2 h2 cname : String),
      (getNickId st nick = none →
        (t_newNick? st nick i1 n1 h1).1 = some st.nextId ∧
        getNickId (t_newNick? st nick i1 n1 h1).2 nick = some st.nextId ∧
        getNickObj (t_newNick? st nick i1 n1 h1).2 st.nextId =
          some { info := { nick := nick, ident := i1, host := h1, name := n1 } } ∧
        t_newNick? (t_newNick? st nick i1 n1 h1).2 nick i2 n2 h2 =
          (none, (t_newNick? st nick i1 n1 h1).2)) ∧
      (getChanId st cname = none →
        (t_newChannel? st cname).1 = some st.nextId ∧
        getChanId (t_newChannel? st cname).2 cname = some st.nextId ∧
        getChanObj (t_newChannel? st cname).2 st.nextId = some { info := { name := cname } } ∧
        t_newChannel? (t_newChannel? st cname).2 cname = (none, (t_newChannel? st cname).2)) := by
  intro st nick i1 n1 h1 i2 n2 h2 cname
  constructor
  · intro h
    unfold getNickId at h
    refine ⟨?_, ?_, ?_, ?_⟩
    · simp [t_newNick?, h]
    · unfold getNickId
      simp [t_newNick?, h, alook_aset_self]
    · unfold getNickObj
      simp [t_newNick?, h, alook_aset_self]
    · rw [show (t_newNick? st nick i1 n1 h1).2 =
        { st with
          nicks := aset nick st.nextId st.nicks
          nickObjs := aset st.nextId
            { info := { nick := nick, ident := i1, host := h1, name := n1 } } st.nickObjs
          nextId := st.nextId + 1 } from by simp [t_newNick?, h]]
      unfold t_newNick?
      simp [alook_aset_self]
  · intro h
    unfold getChanId at h
    refine ⟨?_, ?_, ?_, ?_⟩
    · simp [t_newChannel?, h]
    · unfold getChanId
      simp [t_newChannel?, h, alook_aset_self]
    · unfold getChanObj
      simp [t_newChannel?, h, alook_aset_self]
    · rw [show (t_newChannel? st cname).2 =
        { st with
          chans := aset cname st.nextId st.chans
          chanObjs := aset st.nextId { info := { name := cname } } st.chanObjs
          nextId := st.nextId + 1 } from by simp [t_newChannel?, h]]
      unfold t_newChannel?
      simp [alook_aset_self]

/-- Witness for C8 on the fresh connection: creating `test1` succeeds
and indexes id 1, and a duplicate creation returns nothing with the
tracker unchanged; same for channel `#test1`. -/

theorem c8_new_duplicate_witness :
    ((t_newNick? setUpC.st "test1" "" "" "").1 = some 1 ∧
      t_newNick? (t_newNick? setUpC.st "test1" "" "" "").2 "test1" "" "" "" =
        (none, (t_newNick? setUpC.st "test1" "" "" "").2)) ∧
    ((t_newChannel? setUpC.st "#test1").1 = some 1 ∧
      t_newChannel? (t_newChannel? setUpC.st "#test1").2 "#test1" =
        (none, (t_newChannel? setUpC.st "#test1").2)) := by
  have h := c8_new_duplicate setUpC.st "test1" "" "" "" "" "" "" "#test1"
  have h1 := h.1 (by decide)
  have h2 := h.2 (by decide)
  exact ⟨⟨h1.1, h1.2.2.2⟩, ⟨h2.1, h2.2.2.2⟩⟩

/-! More projection lemmas for the connection record. -/

@[simp] theorem meId_withSt {c : Conn} {st : Tracker} : (c.withSt st).meId = c.meId := rfl

@[simp] theorem meId_send {c : Conn} {s : String} : (c.send s).meId = c.meId := rfl

@[simp] theorem meId_err {c : Conn} {s : String} : (c.err s).meId = c.meId := rfl

@[simp] theorem out_withSt {c : Conn} {st : Tracker} : (c.withSt st).out = c.out := rfl

@[simp] theorem out_send {c : Conn} {s : String} : (c.send s).out = c.out ++ [s] := rfl

@[simp] theorem out_err {c : Conn} {s : String} : (c.err s).out = c.out := rfl

@[simp] theorem errs_withSt {c : Conn} {st : Tracker} : (c.withSt st).errs = c.errs := rfl

@[simp] theorem errs_send {c : Conn} {s : String} : (c.send s).errs = c.errs := rfl

@[simp] theorem errs_err {c : Conn} {s : String} : (c.err s).errs = c.errs ++ [s] := rfl

/-- **C3 (amended).**  For every `433` reply the handler emits exactly
one outbound `NICK` request for the attempted name with the
disambiguating suffix appended; when the attempted nick differs from the
current nick no tracked state changes and the current nick stays as it
was; when the attempted nick equals the current nick the handler — in
addition to that same single outbound request, which `Test433` requires
on the wire in this case too — applies the disambiguated rename locally,
so the current nick becomes the suffixed name. -/

theorem c3_433 :
    ∀ (c : Conn) (l : Line), Inv c.st → l.cmd = "433" →
      (argAt l 1 ≠ meNick c →
        (handle c l).out = c.out ++ ["NICK " ++ argAt l 1 ++ "_"] ∧
        (handle c l).st = c.st ∧
        meNick (handle c l) = meNick c) ∧
      (argAt l 1 = meNick c →
        alook (meNick c) c.st.nicks = some c.meId →
        alook (meNick c ++ "_") c.st.nicks = none →
        (handle c l).out = c.out ++ ["NICK " ++ argAt l 1 ++ "_"] ∧
        meNick (handle c l) = meNick c ++ "_" ∧
        getNickId (handle c l).st (meNick c ++ "_") = some c.meId) := by
  intro c l inv hcmd
  rw [handle_cmd_433 hcmd]
  unfold h_433
  dsimp only
  constructor
  · intro hne
    rw [if_neg hne]
    exact ⟨rfl, rfl, rfl⟩
  · intro heq hme hfree
    rw [if_pos heq]
    obtain ⟨o, ho⟩ := Option.isSome_iff_exists.mp (inv.validN _ _ hme)
    refine ⟨rfl, ?_, ?_⟩
    · unfold meNick
      simp only [meId_withSt, meId_send, st_withSt, st_send]
      rw [heq, t_reNick_move hme hfree]
      unfold getNickObj
      dsimp only
      rw [alook_aupd_self, ho]
      have hmeq : meNick c = o.info.nick := by
        unfold meNick getNickObj
        rw [ho]
      simp [hmeq]
    · unfold getNickId
      simp only [st_withSt, st_send]
      rw [heq, t_reNick_move hme hfree]
      dsimp only
      exact alook_aset_self

/-- Witness for C3 at the `Test433` scenario: a collision on `new`
(differing from the current nick `test`) resends `NICK new_` and leaves
the nick as `test`; a collision on `test` itself renames locally. -/

theorem c3_433_witness :
    ((handle setUpC (parseLineD ":irc.server.org 433 test new :Nickname is already in use.")).out =
      ["NICK new_"] ∧
      meNick (handle setUpC
        (parseLineD ":irc.server.org 433 test new :Nickname is already in use.")) = "test") ∧
    meNick (handle setUpC
      (parseLineD ":irc.server.org 433 test test :Nickname is already in use.")) = "test_" := by
  have inv0 : Inv setUpC.st := reachable_inv ⟨"test", "test", "Testing IRC", [], rfl⟩
  have h1 := (c3_433 setUpC
    (parseLineD ":irc.server.org 433 test new :Nickname is already in use.") inv0
    (by decide)).1 (by decide)
  have h2 := (c3_433 setUpC
    (parseLineD ":irc.server.org 433 test test :Nickname is already in use.") inv0
    (by decide)).2 (by decide) (by decide) (by decide)
  exact ⟨⟨h1.1, h1.2.2⟩, h2.2.1⟩

/-- Counterexample to C3 as stated: in the equal-nick branch the handler
does produce an outbound line — `Test433` expects `NICK test_` on the
wire — rather than staying silent. -/

theorem c3_433_counterexample :
    (handle setUpC (parseLineD ":irc.server.org 433 test test :Nickname is already in use.")).out =
      ["NICK test_"] ∧
    ¬ (handle setUpC
        (parseLineD ":irc.server.org 433 test test :Nickname is already in use.")).out =
      setUpC.out := by
  decide

/-- **C9.**  A user-mode `MODE` line whose target is a tracked nick
other than the local identity emits nothing and mutates nothing: the
tracker (hence the named nick's modes) and the outbound queue are left
exactly as they were. -/

theorem c9_mode_nonme :
    ∀ (c : Conn) (l : Line) (nid : Nat), l.cmd = "MODE" →
      getChanId c.st (argAt l 0) = none →
      getNickId c.st (argAt l 0) = some nid → nid ≠ c.meId →
      (handle c l).st = c.st ∧ (handle c l).out = c.out := by
  intro c l nid hcmd hchan hnick hne
  rw [handle_cmd_MODE hcmd]
  unfold h_MODE
  dsimp only
  rw [hchan]
  dsimp only
  rw [hnick]
  dsimp only
  rw [if_neg hne]
  exact ⟨rfl, rfl⟩

/-- Witness for C9: `MODE user1 +w` against a state tracking `user1`
(not the local identity) leaves tracker and output untouched. -/

theorem c9_mode_nonme_witness :
    (handle cQUIT (parseLineD ":user1!ident1@host1.com MODE user1 +w")).st = cQUIT.st ∧
    (handle cQUIT (parseLineD ":user1!ident1@host1.com MODE user1 +w")).out = cQUIT.out :=
  c9_mode_nonme cQUIT (parseLineD ":user1!ident1@host1.com MODE user1 +w") 1
    (by decide) (by decide) (by decide) (by decide)

/-- **C10.**  A `352` WHO reply for a tracked nick sets its Ident, Host
and Name and folds the status-flag token into its modes: a token
containing `H` sets `Modes.Invisible`, a token containing `G` (and no
`H`) leaves Invisible as it was — false if it was false — and a `*` in
the token sets `Modes.Oper`; a `352` for an untracked nick changes
nothing and emits nothing. -/

theorem c10_352 :
    ∀ (c : Conn) (l : Line) (nid : Nat) (o : NickObj), l.cmd = "352" →
      (getNickId c.st (argAt l 5) = some nid →
        getNickObj c.st nid = some o →
        ∃ o', getNickObj (handle c l).st nid = some o' ∧
          o'.info.ident = argAt l 2 ∧
          o'.info.host = argAt l 3 ∧
          o'.info.name = String.mk (afterFirstSpace (lastArg l).data) ∧
          ('H' ∈ (argAt l 6).data → o'.info.modes.invisible = true) ∧
          ('G' ∈ (argAt l 6).data → 'H' ∉ (argAt l 6).data →
            o'.info.modes.invisible = o.info.modes.invisible) ∧
          ('*' ∈ (argAt l 6).data → o'.info.modes.oper = true)) ∧
      (getNickId c.st (argAt l 5) = none →
        (handle c l).st = c.st ∧ (handle c l).out = c.out) := by
  intro c l nid o hcmd
  rw [handle_cmd_352 hcmd]
  constructor
  · intro h5 ho
    unfold h_352
    rw [h5]
    dsimp only
    simp only [st_withSt]
    unfold t_updNick getNickObj
    dsimp only
    rw [alook_aupd_self]
    unfold getNickObj at ho
    rw [ho]
    by_cases hs : '*' ∈ (argAt l 6).data <;> by_cases hH : 'H' ∈ (argAt l 6).data <;>
      refine ⟨_, rfl, ?_⟩ <;>
      simp [hs, hH]
  · intro h5
    unfold h_352
    rw [h5]
    exact ⟨rfl, rfl⟩

/-- Witness for C10 at the `Test352` scenario: the `G` reply fills in
ident/host/name and leaves Invisible false, the `H*` reply sets both
Invisible and Oper; a `352` for unknown `user2` changes nothing. -/

theorem c10_352_witness :
    (∃ o', getNickObj (handle c352pre (parseLineD
        ":irc.server.org 352 test #test1 ident1 host1.com irc.server.org user1 G :0 name")).st 1 =
          some o' ∧
        o'.info.ident = "ident1" ∧ o'.info.host = "host1.com" ∧ o'.info.name = "name" ∧
        o'.info.modes.invisible = false) ∧
    (∃ o', getNickObj (handle c352pre (parseLineD
        ":irc.server.org 352 test #test1 ident1 host1.com irc.server.org user1 H* :0 name")).st 1 =
          some o' ∧
        o'.info.modes.invisible = true ∧ o'.info.modes.oper = true) ∧
    (handle c352pre (parseLineD
      ":irc.server.org 352 test #test2 ident2 host2.com irc.server.org user2 G :0 fooo")).st =
      c352pre.st := by
  have hG := (c10_352 c352pre (parseLineD
    ":irc.server.org 352 test #test1 ident1 host1.com irc.server.org user1 G :0 name")
    1 { info := { nick := "user1" } } (by decide)).1 (by decide) (by decide)
  have hH := (c10_352 c352pre (parseLineD
    ":irc.server.org 352 test #test1 ident1 host1.com irc.server.org user1 H* :0 name")
    1 { info := { nick := "user1" } } (by decide)).1 (by decide) (by decide)
  have hU := (c10_352 c352pre (parseLineD
    ":irc.server.org 352 test #test2 ident2 host2.com irc.server.org user2 G :0 fooo")
    1 { info := { nick := "user1" } } (by decide)).2 (by decide)
  obtain ⟨o1, ho1, hi1, hh1, hn1, _, hGi, _⟩ := hG
  obtain ⟨o2, ho2, _, _, _, hHi, _, hOp⟩ := hH
  refine ⟨⟨o1, ho1, hi1, hh1, ?_, ?_⟩, ⟨o2, ho2, hHi (by decide), hOp (by decide)⟩, hU.1⟩
  · exact hn1
  · exact hGi (by decide) (by decide)

/-! Name maps are untouched by object allocation on the other side. -/

theorem getChanId_newNick {st : Tracker} {a b c d n : String} :
    getChanId (t_newNick st a b c d) n = getChanId st n := by
  unfold t_newNick t_newNick?
  split <;> rfl

theorem getNickId_newChannel {st : Tracker} {a n : String} :
    getNickId (t_newChannel st a) n = getNickId st n := by
  unfold t_newChannel t_newChannel?
  split <;> rfl

/-- After `AddNick` on two tracked entities, `IsOn` holds. -/

theorem isOn_addNick {st : Tracker} {cn nn : String} {chid nid : Nat}
    (inv : Inv st) (hc : getChanId st cn = some chid) (hn : getNickId st nn = some nid) :
    isOn (t_addNick st chid nid) cn nn = true := by
  obtain ⟨ch, hco⟩ := Option.isSome_iff_exists.mp (inv.validC cn chid hc)
  obtain ⟨n, hno⟩ := Option.isSome_iff_exists.mp (inv.validN nn nid hn)
  have hpr := chanPrivsAt_addNick_self inv hco hno
  unfold isOn
  rw [getChanId_addNick, getNickId_addNick, hc, hn]
  simp [hpr.1, hpr.2]

/-- **C4 (amended).**  A `JOIN` to an untracked channel *by the local
identity* creates the channel and emits exactly one channel-mode query
and one membership (WHO) query for it; a `JOIN` by an untracked nick to
a tracked channel creates the nick and emits one `WHO` for it; when both
are already tracked only the membership link is added and nothing is
emitted; and — per `TestJOIN`'s error paths — a `JOIN` to an untracked
channel by anything other than the local identity is an inconsistency:
nothing is created and nothing is emitted. -/

theorem c4_join :
    ∀ (c : Conn) (l : Line), Inv c.st → l.cmd = "JOIN" →
      (getChanId c.st (argAt l 0) = none →
        getNickId c.st l.nick = some c.meId →
        (handle c l).out = c.out ++ ["MODE " ++ argAt l 0, "WHO " ++ argAt l 0] ∧
        getChanId (handle c l).st (argAt l 0) = some c.st.nextId ∧
        isOn (handle c l).st (argAt l 0) l.nick = true) ∧
      (∀ chid, getChanId c.st (argAt l 0) = some chid →
        getNickId c.st l.nick = none →
        (handle c l).out = c.out ++ ["WHO " ++ l.nick] ∧
        getNickId (handle c l).st l.nick = some c.st.nextId ∧
        isOn (handle c l).st (argAt l 0) l.nick = true) ∧
      (∀ chid nid, getChanId c.st (argAt l 0) = some chid →
        getNickId c.st l.nick = some nid →
        (handle c l).out = c.out ∧
        isOn (handle c l).st (argAt l 0) l.nick = true) ∧
      (getChanId c.st (argAt l 0) = none →
        ¬ getNickId c.st l.nick = some c.meId →
        (handle c l).st = c.st ∧ (handle c l).out = c.out) := by
  intro c l inv hcmd
  rw [handle_cmd_JOIN hcmd]
  unfold h_JOIN
  dsimp only
  refine ⟨?_, ?_, ?_, ?_⟩
  · intro hchan hme
    rw [hchan]
    dsimp only
    rw [if_pos hme]
    have hcu : alook (argAt l 0) c.st.chans = none := hchan
    refine ⟨by simp, ?_, ?_⟩
    · simp only [st_withSt, st_send]
      rw [show getChanId (t_addNick (t_newChannel c.st (argAt l 0)) c.st.nextId c.meId)
          (argAt l 0) = getChanId (t_newChannel c.st (argAt l 0)) (argAt l 0) from
        getChanId_addNick]
      rw [t_newChannel_untracked hcu]
      exact alook_aset_self
    · simp only [st_withSt, st_send]
      refine isOn_addNick (inv_newChannel inv) ?_ ?_
      · rw [t_newChannel_untracked hcu]
        exact alook_aset_self
      · rw [getNickId_newChannel]
        exact hme
  · intro chid hchan hnone
    rw [hchan]
    dsimp only
    rw [hnone]
    dsimp only
    have hnu : alook l.nick c.st.nicks = none := hnone
    refine ⟨by simp, ?_, ?_⟩
    · simp only [st_withSt, st_send]
      rw [show getNickId (t_addNick (t_newNick c.st l.nick l.ident "" l.host) chid c.st.nextId)
          l.nick = getNickId (t_newNick c.st l.nick l.ident "" l.host) l.nick from
        getNickId_addNick]
      rw [t_newNick_untracked hnu]
      exact alook_aset_self
    · simp only [st_withSt, st_send]
      refine isOn_addNick (inv_newNick inv) ?_ ?_
      · rw [getChanId_newNick]
        exact hchan
      · rw [t_newNick_untracked hnu]
        exact alook_aset_self
  · intro chid nid hchan hnick
    rw [hchan]
    dsimp only
    rw [hnick]
    dsimp only
    exact ⟨rfl, isOn_addNick inv hchan hnick⟩
  · intro hchan hne
    rw [hchan]
    dsimp only
    rw [if_neg hne]
    exact ⟨rfl, rfl⟩

/-- Witness for C4 along the `TestJOIN` scenario. -/

theorem c4_join_witness :
    ((handle setUpC lJOIN1).out = ["MODE #test1", "WHO #test1"] ∧
      isOn (handle setUpC lJOIN1).st "#test1" "test" = true) ∧
    ((handle cJ1 lJOIN2).out = cJ1.out ++ ["WHO user1"] ∧
      isOn (handle cJ1 lJOIN2).st "#test1" "user1" = true) ∧
    ((handle cJ2 lJOIN3).out = cJ2.out ∧
      isOn (handle cJ2 lJOIN3).st "#test1" "user2" = true) := by
  have inv0 : Inv setUpC.st := reachable_inv ⟨"test", "test", "Testing IRC", [], rfl⟩
  have inv1 : Inv cJ1.st :=
    reachable_inv ⟨"test", "test", "Testing IRC", [.handle lJOIN1], rfl⟩
  have inv2 : Inv cJ2.st := reachable_inv ⟨"test", "test", "Testing IRC",
    [.handle lJOIN1, .handle lJOIN2, .newNick "user2" "ident2" "name two" "host2.com"], rfl⟩
  have h1 := (c4_join setUpC lJOIN1 inv0 (by decide)).1 (by decide) (by decide)
  have h2 := (c4_join cJ1 lJOIN2 inv1 (by decide)).2.1 1 (by decide) (by decide)
  have h3 := (c4_join cJ2 lJOIN3 inv2 (by decide)).2.2.1 1 3 (by decide) (by decide)
  exact ⟨⟨h1.1, h1.2.2⟩, ⟨h2.1, h2.2.2⟩, h3⟩

/-- Counterexample to C4 as stated: a `JOIN` to the untracked `#test3`
by the tracked non-local nick `user1` creates no channel and emits no
mode or membership query at all. -/

theorem c4_join_counterexample :
    getChanId cQUIT.st "#test3" = none ∧
    (handle cQUIT (parseLineD ":user1!ident1@host1.com JOIN :#test3")).out = cQUIT.out ∧
    getChanId (handle cQUIT (parseLineD ":user1!ident1@host1.com JOIN :#test3")).st "#test3" =
      none := by
  decide

/-- **C6.**  Mode flag characters are applied left to right within their
`+`/`-` segments: valueless channel flags toggle the matching boolean
(`+kisvo somekey test user1` sets Key, InviteOnly and Secret), value
flags consume one value token in order (`k` takes `somekey`), privilege
flags consume a nick-naming token and toggle the matching ChanPrivs bit
(`v` voices `test`, `o` ops `user1`), user flags toggle the matching bit
on the target nick (`+ix` sets Invisible and HiddenHost), and an unknown
flag character is skipped without error or any other effect. -/

theorem c6_mode_codec :
    (∀ (c : Conn) (chid : Nat) (m : Char) (rest : List Char) (b : Bool) (args : List String),
      m ∉ knownChanFlags →
      chanModesGo chid (m :: rest) b args c = chanModesGo chid rest b args c) ∧
    (∀ (st : Tracker) (nid : Nat) (m : Char) (rest : List Char) (b : Bool),
      m ∉ knownUserFlags →
      nickModesGo nid (m :: rest) b st = nickModesGo nid rest b st) ∧
    ((getChannel (handle cMODE lMODEchan).st "#test1").map
        (fun ch => (ch.info.modes.key, ch.info.modes.inviteOnly, ch.info.modes.secret,
          ch.info.modes.moderated)) = some ("somekey", true, true, false) ∧
      linkAt (handle cMODE lMODEchan).st "#test1" "test" = some { voice := true } ∧
      linkAt (handle cMODE lMODEchan).st "#test1" "user1" = some { op := true } ∧
      (handle cMODE lMODEchan).out = cMODE.out) ∧
    ((getNick (handle (handle cMODE lMODEchan) lMODEuser).st "test").map
        (fun o => (o.info.modes.invisible, o.info.modes.wallOps, o.info.modes.hiddenHost)) =
      some (true, false, true)) := by
  refine ⟨?_, ?_, by decide, by decide⟩
  · intro c chid m rest b args h
    simp only [knownChanFlags, List.mem_cons, List.not_mem_nil, not_or, or_false] at h
    obtain ⟨h1, h2, h3, h4, h5, h6, h7, h8, h9, h10, h11, h12, h13, h14, h15⟩ := h
    conv_lhs => unfold chanModesGo
    simp [chanBoolFlags, chanPrivFlags, h1, h2, h3, h4, h5, h6, h7, h8, h9, h10,
      h11, h12, h13, h14, h15]
  · intro st nid m rest b h
    simp only [knownUserFlags, List.mem_cons, List.not_mem_nil, not_or, or_false] at h
    obtain ⟨h1, h2, h3, h4, h5, h6, h7⟩ := h
    conv_lhs => unfold nickModesGo
    simp [userFlags, h1, h2, h3, h4, h5, h6, h7]

/-- Witness for C6: the unknown flag characters `X` (channel case) and
`X` (user case) are skipped with no effect. -/

theorem c6_mode_codec_witness :
    chanModesGo 1 ['X'] false [] setUpC = chanModesGo 1 [] false [] setUpC ∧
    nickModesGo 0 ['X'] false setUpC.st = nickModesGo 0 [] false setUpC.st :=
  ⟨c6_mode_codec.1 setUpC 1 'X' [] false [] (by decide),
   c6_mode_codec.2.1 setUpC.st 0 'X' [] false (by decide)⟩

theorem stripTok_sig_mem {t : List Char} {s : Char}
    (h : (stripTok t).1 = some s) : s ∈ sigils := by
  cases t with
  | nil => simp [stripTok] at h
  | cons c rest =>
    unfold stripTok at h
    dsimp only at h
    by_cases hc : c ∈ sigils
    · rw [if_pos hc] at h
      dsimp only at h
      cases h
      exact hc
    · rw [if_neg hc] at h
      dsimp only at h
      cases h

theorem privOfSig_sigPriv_self {s : Char} {p : ChanPrivs} (h : s ∈ sigils) :
    privOfSig s (sigPriv s p) = true := by
  fin_cases h <;> simp [privOfSig, sigPriv]

theorem privOfSig_sigPriv_mono {s sg : Char} {p : ChanPrivs}
    (h : privOfSig s p = true) : privOfSig s (sigPriv sg p) = true := by
  unfold privOfSig at h ⊢
  by_cases h1 : s = '~'
  · simp only [if_pos h1] at h ⊢
    simp [sigPriv, h]
  · simp only [if_neg h1] at h ⊢
    by_cases h2 : s = '&'
    · simp only [if_pos h2] at h ⊢
      simp [sigPriv, h]
    · simp only [if_neg h2] at h ⊢
      by_cases h3 : s = '@'
      · simp only [if_pos h3] at h ⊢
        simp [sigPriv, h]
      · simp only [if_neg h3] at h ⊢
        by_cases h4 : s = '%'
        · simp only [if_pos h4] at h ⊢
          simp [sigPriv, h]
        · simp only [if_neg h4] at h ⊢
          by_cases h5 : s = '+'
          · simp only [if_pos h5] at h ⊢
            simp [sigPriv, h]
          · simp only [if_neg h5] at h ⊢
            cases h

/-! Stability of lookups under the 353 processing steps. -/

theorem getChanId_setPrivs {st : Tracker} {a b : Nat} {f : ChanPrivs → ChanPrivs}
    {n : String} : getChanId (t_setPrivs st a b f) n = getChanId st n := rfl

theorem getNickId_setPrivs {st : Tracker} {a b : Nat} {f : ChanPrivs → ChanPrivs}
    {n : String} : getNickId (t_setPrivs st a b f) n = getNickId st n := rfl

theorem getChanObj_newNick {st : Tracker} {a b c d : String} {i : Nat} :
    getChanObj (t_newNick st a b c d) i = getChanObj st i := by
  unfold t_newNick t_newNick?
  split <;> rfl

theorem getNickId_newNick_of_isSome {st : Tracker} {a b c d n : String}
    (h : (getNickId st n).isSome) :
    getNickId (t_newNick st a b c d) n = getNickId st n := by
  cases hx : alook a st.nicks with
  | some v => rw [t_newNick_tracked (by simp [hx])]
  | none =>
    rw [t_newNick_untracked hx]
    unfold getNickId at h ⊢
    dsimp only
    have hne : n ≠ a := by
      intro hc
      rw [hc, hx] at h
      simp at h
    exact alook_aset_ne hne

theorem chanPrivsAt_addNick_of_some {st : Tracker} {a b chid0 nid0 : Nat} {p : ChanPrivs}
    (h : chanPrivsAt st chid0 nid0 = some p) :
    chanPrivsAt (t_addNick st a b) chid0 nid0 = some p := by
  cases hc : getChanObj st a with
  | none => rw [t_addNick_no_chan hc]; exact h
  | some ch =>
    cases hn : getNickObj st b with
    | none => rw [t_addNick_no_nick hn]; exact h
    | some n =>
      cases hl : alook b ch.nicks with
      | some q => rw [t_addNick_linked hc (by simp [hl])]; exact h
      | none =>
        rw [t_addNick_new hc hn hl]
        unfold chanPrivsAt getChanObj at h ⊢
        dsimp only
        by_cases h1 : chid0 = a
        · subst h1
          rw [alook_aupd_self]
          unfold getChanObj at hc
          rw [hc] at h ⊢
          simp only [Option.map_some', Option.some_bind] at h ⊢
          by_cases h2 : nid0 = b
          · subst h2
            rw [hl] at h
            cases h
          · rw [alook_aset_ne h2]
            exact h
        · rw [alook_aupd_ne h1]
          exact h

theorem linkAt_addNick_isSome {st : Tracker} {cn nm : String} {chid nid : Nat}
    (inv : Inv st) (hc : getChanId st cn = some chid) (hn : getNickId st nm = some nid) :
    ∃ p, linkAt (t_addNick st chid nid) cn nm = some p := by
  obtain ⟨ch, hco⟩ := Option.isSome_iff_exists.mp (inv.validC cn chid hc)
  obtain ⟨n, hno⟩ := Option.isSome_iff_exists.mp (inv.validN nm nid hn)
  obtain ⟨p, hp⟩ := Option.isSome_iff_exists.mp (chanPrivsAt_addNick_self inv hco hno).1
  refine ⟨p, ?_⟩
  unfold linkAt
  rw [getChanId_addNick, getNickId_addNick, hc, hn]
  exact hp

theorem linkAt_setPrivs_self {st : Tracker} {cn nm : String} {chid nid : Nat}
    {f : ChanPrivs → ChanPrivs}
    (hc : getChanId st cn = some chid) (hn : getNickId st nm = some nid) :
    linkAt (t_setPrivs st chid nid f) cn nm = (chanPrivsAt st chid nid).map f := by
  unfold linkAt
  rw [getChanId_setPrivs, getNickId_setPrivs, hc, hn]
  dsimp only
  rw [chanPrivsAt_setPrivs]
  simp

theorem getChanId_proc353 {chid : Nat} {c : Conn} {t : List Char} {n : String} :
    getChanId (proc353 chid c t).st n = getChanId c.st n := by
  unfold proc353 ensureNick
  dsimp only
  repeat' split
  all_goals simp only [st_withSt]
  all_goals
    simp only [getChanId_setPrivs, getChanId_addNick, getChanId_newNick, st_withSt]

/-- Processing one NAMES token links its nick to the channel with the
sigil-implied privilege set. -/

theorem proc353_establish {chid : Nat} {c : Conn} (t : List Char) {cn : String}
    (inv : Inv c.st) (hc : getChanId c.st cn = some chid) :
    ∃ p, linkAt (proc353 chid c t).st cn (String.mk (stripTok t).2) = some p ∧
      ∀ s, (stripTok t).1 = some s → privOfSig s p = true := by
  unfold proc353 ensureNick
  dsimp only
  cases hsig : (stripTok t).1 with
  | none =>
    dsimp only
    cases hni : getNickId c.st (String.mk (stripTok t).2) with
    | some nid =>
      dsimp only
      simp only [st_withSt]
      obtain ⟨p, hp⟩ := linkAt_addNick_isSome inv hc hni
      exact ⟨p, hp, fun s hs => by cases hs⟩
    | none =>
      dsimp only
      simp only [st_withSt]
      have hni' : alook (String.mk (stripTok t).2) c.st.nicks = none := hni
      have hc1 : getChanId (t_newNick c.st (String.mk (stripTok t).2) "" "" "") cn =
          some chid := by
        rw [getChanId_newNick]
        exact hc
      have hn1 : getNickId (t_newNick c.st (String.mk (stripTok t).2) "" "" "")
          (String.mk (stripTok t).2) = some c.st.nextId := by
        unfold getNickId
        rw [t_newNick_untracked hni']
        exact alook_aset_self
      obtain ⟨p, hp⟩ := linkAt_addNick_isSome (inv_newNick inv) hc1 hn1
      exact ⟨p, hp, fun s hs => by cases hs⟩
  | some sg =>
    dsimp only
    cases hni : getNickId c.st (String.mk (stripTok t).2) with
    | some nid =>
      dsimp only
      simp only [st_withSt]
      obtain ⟨p, hp⟩ := linkAt_addNick_isSome inv hc hni
      have hc2 : getChanId (t_addNick c.st chid nid) cn = some chid := by
        rw [getChanId_addNick]; exact hc
      have hn2 : getNickId (t_addNick c.st chid nid) (String.mk (stripTok t).2) = some nid := by
        rw [getNickId_addNick]; exact hni
      refine ⟨sigPriv sg p, ?_, ?_⟩
      · rw [linkAt_setPrivs_self hc2 hn2]
        have : chanPrivsAt (t_addNick c.st chid nid) chid nid = some p := by
          have hx := hp
          unfold linkAt at hx
          rw [hc2, hn2] at hx
          exact hx
        rw [this]
        rfl
      · intro s hs
        cases hs
        exact privOfSig_sigPriv_self (stripTok_sig_mem hsig)
    | none =>
      dsimp only
      simp only [st_withSt]
      have hni' : alook (String.mk (stripTok t).2) c.st.nicks = none := hni
      have hc1 : getChanId (t_newNick c.st (String.mk (stripTok t).2) "" "" "") cn =
          some chid := by
        rw [getChanId_newNick]
        exact hc
      have hn1 : getNickId (t_newNick c.st (String.mk (stripTok t).2) "" "" "")
          (String.mk (stripTok t).2) = some c.st.nextId := by
        unfold getNickId
        rw [t_newNick_untracked hni']
        exact alook_aset_self
      obtain ⟨p, hp⟩ := linkAt_addNick_isSome (inv_newNick inv) hc1 hn1
      have hc2 : getChanId (t_addNick (t_newNick c.st (String.mk (stripTok t).2) "" "" "")
          chid c.st.nextId) cn = some chid := by
        rw [getChanId_addNick]; exact hc1
      have hn2 : getNickId (t_addNick (t_newNick c.st (String.mk (stripTok t).2) "" "" "")
          chid c.st.nextId) (String.mk (stripTok t).2) = some c.st.nextId := by
        rw [getNickId_addNick]; exact hn1
      refine ⟨sigPriv sg p, ?_, ?_⟩
      · rw [linkAt_setPrivs_self hc2 hn2]
        have : chanPrivsAt (t_addNick (t_newNick c.st (String.mk (stripTok t).2) "" "" "")
            chid c.st.nextId) chid c.st.nextId = some p := by
          have hx := hp
          unfold linkAt at hx
          rw [hc2, hn2] at hx
          exact hx
        rw [this]
        rfl
      · intro s hs
        cases hs
        exact privOfSig_sigPriv_self (stripTok_sig_mem hsig)

theorem chanPrivsAt_newNick {st : Tracker} {a b c d : String} {i j : Nat} :
    chanPrivsAt (t_newNick st a b c d) i j = chanPrivsAt st i j := by
  unfold chanPrivsAt
  rw [getChanObj_newNick]

theorem linkAt_elim {st : Tracker} {cn nm : String} {p : ChanPrivs}
    (h : linkAt st cn nm = some p) :
    ∃ chid0 nid0, getChanId st cn = some chid0 ∧ getNickId st nm = some nid0 ∧
      chanPrivsAt st chid0 nid0 = some p := by
  unfold linkAt at h
  cases hc : getChanId st cn with
  | none => rw [hc] at h; cases h
  | some chid0 =>
    cases hn : getNickId st nm with
    | none => rw [hc, hn] at h; cases h
    | some nid0 =>
      rw [hc, hn] at h
      exact ⟨chid0, nid0, rfl, rfl, h⟩

theorem linkAt_addNick_mono {st : Tracker} {cn nm : String} {A B : Nat} {p : ChanPrivs}
    (h : linkAt st cn nm = some p) : linkAt (t_addNick st A B) cn nm = some p := by
  obtain ⟨chid0, nid0, hc0, hn0, hpv⟩ := linkAt_elim h
  unfold linkAt
  rw [getChanId_addNick, getNickId_addNick, hc0, hn0]
  exact chanPrivsAt_addNick_of_some hpv

theorem linkAt_newNick_mono {st : Tracker} {cn nm : String} {a b c d : String}
    {p : ChanPrivs} (h : linkAt st cn nm = some p) :
    linkAt (t_newNick st a b c d) cn nm = some p := by
  obtain ⟨chid0, nid0, hc0, hn0, hpv⟩ := linkAt_elim h
  unfold linkAt
  rw [getChanId_newNick, getNickId_newNick_of_isSome (by simp [hn0]), hc0, hn0]
  dsimp only
  rw [chanPrivsAt_newNick]
  exact hpv

theorem linkAt_setPrivs_mono {st : Tracker} {cn nm : String} {A B : Nat} {sg : Char}
    {p : ChanPrivs} (h : linkAt st cn nm = some p) :
    ∃ q, linkAt (t_setPrivs st A B (sigPriv sg)) cn nm = some q ∧
      ∀ s, privOfSig s p = true → privOfSig s q = true := by
  obtain ⟨chid0, nid0, hc0, hn0, hpv⟩ := linkAt_elim h
  have e : linkAt (t_setPrivs st A B (sigPriv sg)) cn nm =
      chanPrivsAt (t_setPrivs st A B (sigPriv sg)) chid0 nid0 := by
    unfold linkAt
    rw [getChanId_setPrivs, getNickId_setPrivs, hc0, hn0]
  rw [e, chanPrivsAt_setPrivs]
  by_cases hAB : chid0 = A ∧ nid0 = B
  · rw [if_pos hAB, hpv]
    exact ⟨sigPriv sg p, rfl, fun s hs => privOfSig_sigPriv_mono hs⟩
  · rw [if_neg hAB, hpv]
    exact ⟨p, rfl, fun s hs => hs⟩

/-- Processing further NAMES tokens never unlinks a member or clears a
privilege bit already set. -/

theorem proc353_mono {chid : Nat} {c : Conn} {t : List Char} {cn nm : String}
    {p : ChanPrivs} (hl : linkAt c.st cn nm = some p) :
    ∃ q, linkAt (proc353 chid c t).st cn nm = some q ∧
      ∀ s, privOfSig s p = true → privOfSig s q = true := by
  unfold proc353 ensureNick
  dsimp only
  cases hsig : (stripTok t).1 with
  | none =>
    dsimp only
    cases hni : getNickId c.st (String.mk (stripTok t).2) with
    | some nid =>
      dsimp only
      simp only [st_withSt]
      exact ⟨p, linkAt_addNick_mono hl, fun s hs => hs⟩
    | none =>
      dsimp only
      simp only [st_withSt]
      exact ⟨p, linkAt_addNick_mono (linkAt_newNick_mono hl), fun s hs => hs⟩
  | some sg =>
    dsimp only
    cases hni : getNickId c.st (String.mk (stripTok t).2) with
    | some nid =>
      dsimp only
      simp only [st_withSt]
      exact linkAt_setPrivs_mono (linkAt_addNick_mono hl)
    | none =>
      dsimp only
      simp only [st_withSt]
      exact linkAt_setPrivs_mono (linkAt_addNick_mono (linkAt_newNick_mono hl))

theorem foldl_proc353_mono {chid : Nat} {cn nm : String} (ts : List (List Char)) :
    ∀ (c : Conn) (p : ChanPrivs), linkAt c.st cn nm = some p →
      ∃ q, linkAt ((ts.foldl (proc353 chid) c)).st cn nm = some q ∧
        ∀ s, privOfSig s p = true → privOfSig s q = true := by
  induction ts with
  | nil => exact fun c p h => ⟨p, h, fun s hs => hs⟩
  | cons t ts ih =>
    intro c p h
    obtain ⟨q, hq, hmono⟩ := @proc353_mono chid _ t _ _ _ h
    obtain ⟨r, hr, hmono2⟩ := ih _ q hq
    exact ⟨r, by simpa using hr, fun s hs => hmono2 s (hmono s hs)⟩

theorem foldl_proc353_establish {chid : Nat} {cn : String} (ts : List (List Char)) :
    ∀ c : Conn, Inv c.st → getChanId c.st cn = some chid →
      ∀ t ∈ ts,
        ∃ p, linkAt ((ts.foldl (proc353 chid) c)).st cn (String.mk (stripTok t).2) = some p ∧
          ∀ s, (stripTok t).1 = some s → privOfSig s p = true := by
  induction ts with
  | nil =>
    intro c _ _ t ht
    cases ht
  | cons t0 ts ih =>
    intro c inv hc t ht
    simp only [List.foldl_cons]
    rcases List.mem_cons.mp ht with rfl | ht'
    · obtain ⟨p, hp, hsig⟩ := @proc353_establish chid _ t _ inv hc
      obtain ⟨q, hq, hmono⟩ := foldl_proc353_mono ts _ p hp
      exact ⟨q, hq, fun s hs => hmono s (hsig s hs)⟩
    · exact ih (proc353 chid c t0) (inv_proc353 inv)
        (by rw [getChanId_proc353]; exact hc) t ht'

/-- **C5.**  Every whitespace token of a `353` names reply, stripped of
at most one leading sigil, names a member of the channel: the nick is
created if unseen and its membership carries the sigil-implied
privilege; successive replies accumulate, so `Test353`'s two lines
leave 8 tracked members with exactly the sigil-implied flags. -/

theorem c5_353 :
    (∀ (c : Conn) (l : Line) (chid : Nat), Inv c.st → l.cmd = "353" →
      getChanId c.st (argAt l 2) = some chid →
      ∀ t ∈ fields (lastArg l).data,
        ∃ p, linkAt (handle c l).st (argAt l 2) (String.mk (stripTok t).2) = some p ∧
          ∀ s, (stripTok t).1 = some s → privOfSig s p = true) ∧
    ((getChannel st353 "#test1").map (fun ch => ch.nicks.length) = some 8 ∧
      linkAt st353 "#test1" "test" = some {} ∧
      linkAt st353 "#test1" "user1" = some { op := true } ∧
      linkAt st353 "#test1" "user2" = some {} ∧
      linkAt st353 "#test1" "voice" = some { voice := true } ∧
      linkAt st353 "#test1" "halfop" = some { halfOp := true } ∧
      linkAt st353 "#test1" "op" = some { op := true } ∧
      linkAt st353 "#test1" "admin" = some { admin := true } ∧
      linkAt st353 "#test1" "owner" = some { owner := true }) := by
  constructor
  · intro c l chid inv hcmd hc t ht
    rw [handle_cmd_353 hcmd]
    unfold h_353
    rw [hc]
    dsimp only
    exact foldl_proc353_establish _ c inv hc t ht
  · exact ⟨by decide, by decide, by decide, by decide, by decide, by decide, by decide,
      by decide, by decide⟩

/-- Witness for C5: the token `@user1` of the first `Test353` line links
`user1` to `#test1` with the op bit set. -/

theorem c5_353_witness :
    ∃ p, linkAt (handle c353pre l353a).st "#test1" "user1" = some p ∧ p.op = true := by
  have inv : Inv c353pre.st := reachable_inv ⟨"test", "test", "Testing IRC",
    [.newChannel "#test1", .newNick "user1" "ident1" "name one" "host1.com",
      .addNick "#test1" "user1", .addNick "#test1" "test"], rfl⟩
  obtain ⟨p, hp, hs⟩ := c5_353.1 c353pre l353a 1 inv (by decide) (by decide)
    "@user1".data (by decide)
  refine ⟨p, hp, ?_⟩
  simpa [privOfSig] using hs '@' (by decide)

end Goirc
